import Mathlib

/-!
Verification of the E-LAUTE GitHub-Actions transform pipeline
(`scripts/coordinator.py`, `scripts/script_collection.py`, `scripts/utils.py`).

The MEI documents handled by the scripts are shallowly embedded as ordered
trees of elements (`XNode`); the Python functions are translated into
executable Lean definitions over that tree type.  Python exceptions become
an explicit error type (`PErr`), one constructor per `raise` site; machine
floats (whose values here stay exactly representable) are modelled by the
exact fraction type `Frac`, bridged to `ℚ` in theorem statements; in-place
`lxml` mutation is modelled by state passing (functions return the
resulting tree, also in the error case, so that "the tree after an
exception" is observable).
-/

set_option linter.unusedVariables false

namespace ELaute

/-- An MEI element: local tag name (the `mei:` namespace is implicit, the
`xml:` namespace is spelled out in attribute keys such as `"xml:id"`),
attribute list, `.text` content, ordered children.  Models an
`lxml.etree._Element`. -/
inductive XNode where
  | mk (tag : String) (attrs : List (String × String)) (text : Option String)
       (children : List XNode)

namespace XNode

def tag : XNode → String
  | .mk t _ _ _ => t

def attrs : XNode → List (String × String)
  | .mk _ a _ _ => a

def text : XNode → Option String
  | .mk _ _ s _ => s

def children : XNode → List XNode
  | .mk _ _ _ c => c

/-- `elem.get(key)`: first binding of the attribute, if any. -/
def attr (x : XNode) (key : String) : Option String :=
  (x.attrs.find? (fun p => p.1 = key)).map Prod.snd

/-- `elem.get(key, d)`. -/
def attrD (x : XNode) (key d : String) : String :=
  (x.attr key).getD d

mutual

/-- Structural equality test (lxml compares by identity; the embedded
trees we reason about have structurally distinct nodes, so structural
equality is an adequate replacement). -/
def beq : XNode → XNode → Bool
  | .mk t a s c, .mk t' a' s' c' =>
      t = t' && a = a' && s = s' && beqList c c'

def beqList : List XNode → List XNode → Bool
  | [], [] => true
  | x :: xs, y :: ys => beq x y && beqList xs ys
  | _, _ => false

end

instance : BEq XNode := ⟨beq⟩

mutual

/-- All descendants of a node in document (pre-)order; models
`elem.xpath(".//...")` result order (the node itself excluded). -/
def descs : XNode → List XNode
  | .mk _ _ _ cs => descsList cs

def descsList : List XNode → List XNode
  | [] => []
  | c :: cs => c :: descs c ++ descsList cs

end

/-- `elem.iter()`: the node itself followed by all descendants, pre-order. -/
def iter (x : XNode) : List XNode :=
  x :: x.descs

/-- First descendant satisfying `p`, in document order; models
`elem.find(".//...")`. -/
def findDesc (x : XNode) (p : XNode → Bool) : Option XNode :=
  (x.descs.filter p).head?

end XNode

/-- Errors: one constructor per Python `raise` site reached by the embedded
functions (plus the interpreter-level errors the code can run into). -/
inductive PErr where
  /-- `NameError` from `determine_notationtype` (naming convention). -/
  | nameError (stem : String)
  /-- `KeyError` (coordinator: incomplete additional arguments). -/
  | keyError (msg : String)
  /-- `TypeError`; `missingArg = true` for "missing n required positional
  argument", `false` e.g. for subscripting a tuple with a string. -/
  | typeError (missingArg : Bool)
  /-- `ValueError` raised by `int()` / `float()`. -/
  | valueError (s : String)
  /-- `ZeroDivisionError` (in `dur_length`, when `@dur` is `0`). -/
  | zeroDivision
  /-- `IndexError` (Python `list[-1]` / `list[i]` out of range). -/
  | indexError
  /-- `check_addargs_against_json`: declared parameter without `"type"`. -/
  | paramMissesType (key : String)
  /-- `check_addargs_against_json`: user input not coercible. -/
  | invalidParamType (key ty : String)
  /-- `check_addargs_against_json`: no user input and no default. -/
  | missingParam (key : String)
  /-- `KeyError` from `JSON_TYPE_TO_PYTHON_TYPE[...]` on an unknown type. -/
  | unknownJsonType (ty : String)
  /-- `add_facs_from_context`: active document already has a facsimile. -/
  | alreadyHasFacs (filename : String)
  /-- `add_facs_from_context`: context document has no facsimile. -/
  | noFacsInHelp (filename : String)
  /-- context-document lookup failed (`needs context_dom X, not found`). -/
  | ctxNotFound (want : String)
  /-- `add_section_foldir_from_context_to_ed`: active doc not `ed`. -/
  | mustBeEd (filename : String)
  /-- `add_section_foldir_from_context_to_ed`: number of sections ≠ 1. -/
  | sectionCountNot1 (filename : String)
  /-- `add_section_foldir_from_context_to_ed`: last measure numbers differ
  (`"has diffrent number of measures from"`). -/
  | mnumMismatch (activeFile helpFile : String)
  /-- `add_section_foldir_from_context_to_ed`: surfaces ≠ sections. -/
  | surfaceMismatch (filename : String)
  /-- `add_section_foldir_from_context_to_ed`: walk ended early
  (`"wasn't processed because of misalignment of section"`). -/
  | misalignment (filename : String)
  /-- `get_section_info_dipl`: no foldir in the context document. -/
  | noFoldir (filename : String)
  /-- `get_section_info_dipl`: a foldir's parent is not a measure. -/
  | foldirParentNotMeasure (filename n : String)
  /-- `get_section_info_dipl`: more than one `pb` in an enclosing `reg`. -/
  | morePbInReg (n : String)
  /-- `get_section_info_dipl`: element before the measure is no `pb`. -/
  | noPbBefore (n : String)
  /-- `get_section_info_ed`: a section's first measure has no foldir. -/
  | noFoldirEd (filename : String)
  /-- `add_finis_to_last_measure`: a finis `dir` is already present. -/
  | finisAlready
  /-- `add_finis_to_last_measure`: tstamp never became an integer. -/
  | problematicTstamp (n : String)
  /-- `AttributeError` (e.g. `None.insert(...)`). -/
  | attributeError
  /-- generic `RuntimeError` raised by an abstract transform step. -/
  | runtimeError (msg : String)
  deriving DecidableEq, Repr

/-- Is the error the last-measure-number mismatch? -/
def PErr.isMnumMismatch : PErr → Bool
  | .mnumMismatch _ _ => true
  | _ => false

/-! ### Python number parsing (`int()`, `float()`) -/

/-- Python `int(s)` on a string: optional surrounding spaces, optional
sign, then at least one digit (underscore grouping not modelled). -/
def pyInt (s : String) : Option Int :=
  let l := s.toList.dropWhile (· = ' ')
  let l := (l.reverse.dropWhile (· = ' ')).reverse
  let (neg, ds) :=
    match l with
    | '-' :: rest => (true, rest)
    | '+' :: rest => (false, rest)
    | _ => (false, l)
  if ds = [] || ¬ ds.all Char.isDigit then none
  else
    let n := ds.foldl (fun acc c => acc * 10 + (c.toNat - '0'.toNat)) 0
    some (if neg then -(n : Int) else (n : Int))

/-- An exact fraction, modelling a Python `float` whose value stays exactly
representable (all duration arithmetic in the corpus is dyadic).  The
numeric value is `num / den`; `den` is kept positive by construction.
Using an explicit pair instead of `ℚ` keeps every embedded function
evaluable by kernel reduction (`decide` / `rfl`). -/
structure Frac where
  num : Int
  den : Int
  deriving DecidableEq, Repr

namespace Frac

def ofInt (n : Int) : Frac := ⟨n, 1⟩

def add (a b : Frac) : Frac := ⟨a.num * b.den + b.num * a.den, a.den * b.den⟩

def sub (a b : Frac) : Frac := ⟨a.num * b.den - b.num * a.den, a.den * b.den⟩

def mul (a b : Frac) : Frac := ⟨a.num * b.num, a.den * b.den⟩

def div (a b : Frac) : Frac := ⟨a.num * b.den, a.den * b.num⟩

/-- Python `x == 0` for a float (denominators are nonzero throughout). -/
def isZero (a : Frac) : Bool := a.num = 0

/-- Python `float.is_integer()`. -/
def isInt (a : Frac) : Bool := a.den ≠ 0 && a.num % a.den = 0

/-- The rational value of the fraction. -/
def toQ (a : Frac) : ℚ := (a.num : ℚ) / (a.den : ℚ)

/-- Decimal digits of `rem / den` (both positive), with fuel; the values
printed by the scripts all have short terminating expansions. -/
def fracDigits : Nat → Nat → Nat → String
  | 0, _, _ => ""
  | _ + 1, 0, _ => ""
  | fuel + 1, rem, den =>
      let d := rem * 10 / den
      let rem' := rem * 10 % den
      toString d ++ fracDigits fuel rem' den

/-- Python `str()` of a float with a terminating decimal expansion
(e.g. `5.0 → "5.0"`, `7.5 → "7.5"`); this is the form in which computed
tstamps are stored into attributes. -/
def pyStr (a : Frac) : String :=
  let sgn := if a.num * a.den < 0 then "-" else ""
  let nn := a.num.natAbs
  let dd := a.den.natAbs
  let ip := nn / dd
  let rem := nn % dd
  sgn ++ toString ip ++ "." ++ (if rem = 0 then "0" else fracDigits 30 rem dd)

end Frac

/-- Python `float(s)` on a string, restricted to the decimal forms the
corpus uses: optional sign, digits, optional fraction part. -/
def pyFloat (s : String) : Option Frac :=
  let l := s.toList.dropWhile (· = ' ')
  let l := (l.reverse.dropWhile (· = ' ')).reverse
  let (neg, l) :=
    match l with
    | '-' :: rest => (true, rest)
    | '+' :: rest => (false, rest)
    | _ => (false, l)
  let intPart := l.takeWhile Char.isDigit
  let rest := l.dropWhile Char.isDigit
  let (fracPart, rest) :=
    match rest with
    | '.' :: r => (r.takeWhile Char.isDigit, r.dropWhile Char.isDigit)
    | _ => ([], rest)
  if rest ≠ [] || (intPart = [] && fracPart = []) then none
  else
    let iv : ℕ := intPart.foldl (fun acc c => acc * 10 + (c.toNat - '0'.toNat)) 0
    let fv : ℕ := fracPart.foldl (fun acc c => acc * 10 + (c.toNat - '0'.toNat)) 0
    let n : Int := iv * 10 ^ fracPart.length + fv
    some ⟨if neg then -n else n, (10 : Int) ^ fracPart.length⟩

/-- Python `sub in s` substring test. -/
def pyIn (sub s : String) : Bool :=
  (s.toList).tails.any (fun t => sub.toList.isPrefixOf t)

/-! ### `utils.dur_length` -/

/-- Python `2 ** k` for an integer `k` (a float when `k < 0`). -/
def pow2 (k : Int) : Frac :=
  if k ≥ 0 then ⟨(2 : Int) ^ k.toNat, 1⟩ else ⟨1, (2 : Int) ^ (-k).toNat⟩

/-- The per-leaf duration value the source computes for a child with
`@dur = dur` and `@dots = dots`:
`2 / dur - 1 / (dur * 2 ** dots)` (whole-note units). -/
def leafVal (dur : Frac) (dots : Int) : Frac :=
  (Frac.div ⟨2, 1⟩ dur).sub (Frac.div ⟨1, 1⟩ (dur.mul (pow2 dots)))

instance {ε α : Type} [DecidableEq ε] [DecidableEq α] : DecidableEq (Except ε α) :=
  fun a b =>
    match a, b with
    | .ok x, .ok y =>
        if h : x = y then .isTrue (by rw [h]) else .isFalse (by simp [h])
    | .error x, .error y =>
        if h : x = y then .isTrue (by rw [h]) else .isFalse (by simp [h])
    | .ok _, .error _ => .isFalse (by simp)
    | .error _, .ok _ => .isFalse (by simp)

mutual

/-- `utils.dur_length(elem)` with the default `ignore=["sic", "orig"]`:
recursively adds up all `@dur` in the subtree, accounting for `@dots`;
children whose tag is in `ignore` are skipped.  `float()`/`int()` failures
are `ValueError`s and `@dur = 0` is a `ZeroDivisionError`, as in Python. -/
def dur_length : XNode → Except PErr Frac
  | .mk _ _ _ cs => durLengthList cs

def durLengthList : List XNode → Except PErr Frac
  | [] => .ok ⟨0, 1⟩
  | child :: rest =>
      if child.tag = "sic" || child.tag = "orig" then
        durLengthList rest
      else
        match child.attr "dur" with
        | some dstr =>
            match pyFloat dstr with
            | none => Except.error (.valueError dstr)
            | some dur =>
              match pyInt (child.attrD "dots" "0") with
              | none => Except.error (.valueError (child.attrD "dots" "0"))
              | some dots =>
                if dur.isZero then
                  Except.error .zeroDivision
                else
                  match durLengthList rest with
                  | .error e => .error e
                  | .ok tl => .ok (Frac.add (leafVal dur dots) tl)
        | none =>
            match dur_length child with
            | .error e => .error e
            | .ok hd =>
              match durLengthList rest with
              | .error e => .error e
              | .ok tl => .ok (Frac.add hd tl)

end

/-- A note leaf with `@dur` and `@dots`. -/
def note (dur : String) (dots : Option String) : XNode :=
  .mk "note" ([("dur", dur)] ++ (dots.map (fun d => [("dots", d)])).getD []) none []

example : (dur_length (.mk "measure" [] none [note "4" none])).map Frac.toQ
    = .ok ((1 : ℚ)/4) := by
  have h : dur_length (.mk "measure" [] none [note "4" none]) = .ok ⟨4, 16⟩ := by
    decide
  rw [h]
  simp [Except.map, Frac.toQ]
  norm_num

/-! ### More tree operations (modelling in-place `lxml` mutation) -/

namespace XNode

/-- `elem` with `child` appended to its children (an `etree.SubElement`
call on `elem`, or an `elem.append`). -/
def appendChild (x : XNode) (c : XNode) : XNode :=
  .mk x.tag x.attrs x.text (x.children ++ [c])

/-- `elem.set(key, val)`: replaces the value of an existing attribute or
appends a new one. -/
def setAttr (x : XNode) (key val : String) : XNode :=
  .mk x.tag
    (if (x.attrs.find? (fun p => p.1 = key)).isSome then
      x.attrs.map (fun p => if p.1 = key then (p.1, val) else p)
    else x.attrs ++ [(key, val)])
    x.text x.children

/-- `elem.attrib.pop(key, None)`. -/
def popAttr (x : XNode) (key : String) : XNode :=
  .mk x.tag (x.attrs.filter (fun p => p.1 ≠ key)) x.text x.children

mutual

/-- Replace the first descendant (document order, the root excluded, as
with `root.find(".//...")`) satisfying `p` by its image under `f`;
returns the new tree and whether a node was replaced. -/
def mapFirstDesc (p : XNode → Bool) (f : XNode → XNode) : XNode → XNode × Bool
  | .mk t a s cs =>
      let r := mapFirstDescList p f cs
      (.mk t a s r.1, r.2)

def mapFirstDescList (p : XNode → Bool) (f : XNode → XNode) :
    List XNode → List XNode × Bool
  | [] => ([], false)
  | c :: cs =>
      if p c then (f c :: cs, true)
      else
        let r := mapFirstDesc p f c
        if r.2 then (r.1 :: cs, true)
        else
          let r' := mapFirstDescList p f cs
          (r.1 :: r'.1, r'.2)

end

mutual

/-- Apply `f` to every descendant satisfying `p` (root excluded); models a
`findall` followed by a per-node attribute mutation, so `f` is applied
after the children have been processed and must not touch them. -/
def mapDescs (p : XNode → Bool) (f : XNode → XNode) : XNode → XNode
  | .mk t a s cs => .mk t a s (mapDescsList p f cs)

def mapDescsList (p : XNode → Bool) (f : XNode → XNode) : List XNode → List XNode
  | [] => []
  | c :: cs =>
      (if p c then f (mapDescs p f c) else mapDescs p f c) :: mapDescsList p f cs

end

end XNode

/-- XPath `normalize-space(.)` on an element's own text. -/
def normalizeSpace (s : String) : String :=
  String.intercalate " "
    ((s.toList.foldr
        (fun c acc =>
          if c = ' ' || c = '\t' || c = '\n' || c = '\r' then [] :: acc
          else (c :: acc.headD []) :: acc.tail)
        [[]]).filter (· ≠ []) |>.map (fun w => String.mk w))

/-! ### `coordinator.determine_notationtype` -/

/-- The alternations of the second and third capturing group of
`.+_enc_((dipl|ed)_(GLT|FLT|ILT|CMN))`, tried in the regex's order. -/
def ntPrefixes : List String := ["dipl", "ed"]

def ntTypes : List String := ["GLT", "FLT", "ILT", "CMN"]

/-- Try to match `_enc_((dipl|ed)_(GLT|FLT|ILT|CMN))` at the head of `l`;
returns `(group 1, group 3)` on success. -/
def ntMatchAt (l : List Char) : Option (String × String) :=
  if "_enc_".toList.isPrefixOf l then
    let l := l.drop 5
    (ntPrefixes.filterMap (fun p =>
      if (p ++ "_").toList.isPrefixOf l then
        let l' := l.drop (p.length + 1)
        (ntTypes.filterMap (fun t =>
          if t.toList.isPrefixOf l' then some (p ++ "_" ++ t, t) else none)).head?
      else none)).head?
  else none

/-- `re.match(r".+_enc_((dipl|ed)_(GLT|FLT|ILT|CMN))", stem)`: the greedy
`.+` makes the regex bind the groups at the rightmost position at which
the rest of the pattern matches; at least one character must precede it. -/
def ntMatch (stem : String) : Option (String × String) :=
  let cs := stem.toList
  ((List.range cs.length).reverse.filterMap
    (fun i => if i = 0 then none else ntMatchAt (cs.drop i))).head?

/-- `coordinator.determine_notationtype`, applied to the filename stem.
The source returns `notationtype_re.group(3)` — the bare tablature type
without the `dipl`/`ed` prefix. -/
def determine_notationtype (stem : String) : Except PErr String :=
  match ntMatch stem with
  | none => .error (.nameError stem)
  | some (_g1, g3) => .ok g3

/-- A parsed document plus metadata, the `{filename:, notationtype:, dom:}`
dictionary built by `coordinator.parse_and_wrap_dom`. -/
structure WrapperD where
  filename : String
  notationtype : String
  dom : XNode

/-- `coordinator.parse_and_wrap_dom`, given the already-parsed tree and
the filename stem. -/
def parse_and_wrap_dom (stem : String) (dom : XNode) : Except PErr WrapperD :=
  match determine_notationtype stem with
  | .error e => .error e
  | .ok nt => .ok ⟨stem, nt, dom⟩

/-- The `for context_dom in context_doms: if … == getElemFrom: break / else:
raise` lookup shared by the `*_from_context` transforms. -/
def findContextDom (ctxs : List WrapperD) (want : String) : Option WrapperD :=
  ctxs.find? (fun c => c.notationtype == want)

example : determine_notationtype "LW1_n01_1r-2v_enc_dipl_GLT" = .ok "GLT" := by decide
example : determine_notationtype "foo" = .error (.nameError "foo") := by decide

/-! ### `utils.edit_appInfo` -/

/-- The `application` elements with a `name` child whose normalized text is
`GitHub Action Scripts` (the target of the xpath
`.//mei:application/mei:name[normalize-space(.)='GitHub Action Scripts']/..`). -/
def isGhApplication (x : XNode) : Bool :=
  x.tag == "application" &&
    x.children.any (fun c =>
      c.tag == "name" && normalizeSpace (c.text.getD "") == "GitHub Action Scripts")

/-- `utils.edit_appInfo(root, p_description)`: appends a `<p>` with
`p_description` to the `GitHub Action Scripts` `<application>` under
`<appInfo>`, creating that application (dated `today`) when absent and
shifting `isodate`/`startdate`/`enddate` when present.  `today` stands for
`date.today().isoformat()`. -/
def edit_appInfo (root : XNode) (p_description today : String) : Except PErr XNode :=
  let pElem : XNode := .mk "p" [] (some p_description) []
  if ¬ (root.descs.filter isGhApplication).isEmpty then
    .ok (root.mapFirstDesc isGhApplication (fun app =>
      let app :=
        match app.attr "isodate" with
        | some d => if d ≠ today then (app.setAttr "startdate" d).popAttr "isodate"
                    else app
        | none => app
      let app :=
        if (app.attr "isodate").isNone then app.setAttr "enddate" today else app
      app.appendChild pElem)).1
  else
    match root.findDesc (fun x => x.tag == "appInfo") with
    | none => .error (.typeError false)
    | some _ =>
        let application : XNode :=
          .mk "application" [("isodate", today)] none
            [.mk "name" [] (some "GitHub Action Scripts") [], pElem]
        .ok (root.mapFirstDesc (fun x => x.tag == "appInfo")
              (fun ai => ai.appendChild application)).1

/-! ### `script_collection.add_facs_from_context` -/

/-- `script_collection.add_facs_from_context`: copies the first facsimile
of the context document with notation type `getElemFrom` into the active
document's `<music>` (dropping `xml:id`s), failing if the active document
already has one or the context has none. -/
def add_facs_from_context (active : WrapperD) (ctxs : List WrapperD)
    (getElemFrom : String) : Except PErr (WrapperD × String) :=
  match findContextDom ctxs getElemFrom with
  | none => .error (.ctxNotFound getElemFrom)
  | some help =>
      let root := active.dom
      if ¬ (root.descs.filter (fun x => x.tag == "facsimile")).isEmpty then
        .error (.alreadyHasFacs active.filename)
      else
        match help.dom.descs.filter (fun x => x.tag == "facsimile") with
        | [] => .error (.noFacsInHelp help.filename)
        | f :: _ =>
            let newfacs :=
              (f.popAttr "xml:id").mapDescs (fun x => x.tag == "graphic")
                (fun g => g.popAttr "xml:id")
            match root.children.find? (fun x => x.tag == "music") with
            | none => .error .attributeError
            | some _ =>
                let root' := XNode.mk root.tag root.attrs root.text
                  (root.children.map (fun c =>
                    if c.tag == "music" then
                      XNode.mk c.tag c.attrs c.text (newfacs :: c.children)
                    else c))
                .ok ({ active with dom := root' }, "")

/-! ### Parameter validation (`coordinator.check_addargs_against_json`,
`coordinator.addargs_to_dic`) -/

/-- A validated parameter value: Python `int` or `str` after coercion. -/
inductive AVal where
  | int (z : Int)
  | str (s : String)
  deriving DecidableEq, Repr

/-- One entry of a workpackage's `params` JSON object: optional `"type"`
and optional `"default"` keys. -/
structure ParamSpec where
  type? : Option String
  default? : Option AVal
  deriving DecidableEq, Repr

/-- First value bound to `k` in an association list. -/
def lookupStr (l : List (String × String)) (k : String) : Option String :=
  (l.find? (fun p => p.1 == k)).map Prod.snd

/-- `coordinator.check_addargs_against_json(addargs_dic, workpackage)`,
iterating over the declared parameters in schema order.  Returns the
validated map together with the keys for which a default-taken warning
was printed. -/
def check_addargs_against_json (addargs : List (String × String))
    (params : List (String × ParamSpec)) :
    Except PErr (List (String × AVal) × List String) :=
  match params with
  | [] => .ok ([], [])
  | (key, spec) :: rest =>
      match lookupStr addargs key with
      | some v =>
          match spec.type? with
          | none => .error (.paramMissesType key)
          | some ty =>
              if ty = "Number" then
                match pyInt v with
                | none => .error (.invalidParamType key ty)
                | some z =>
                    match check_addargs_against_json addargs rest with
                    | .error e => .error e
                    | .ok (m, w) => .ok ((key, .int z) :: m, w)
              else if ty = "String" then
                match check_addargs_against_json addargs rest with
                | .error e => .error e
                | .ok (m, w) => .ok ((key, .str v) :: m, w)
              else .error (.unknownJsonType ty)
      | none =>
          match spec.default? with
          | some d =>
              match check_addargs_against_json addargs rest with
              | .error e => .error e
              | .ok (m, w) => .ok ((key, d) :: m, key :: w)
          | none => .error (.missingParam key)

/-- Assignment into a Python dict: replaces the value of an existing key,
appends a new key at the end. -/
def dictSet (l : List (String × String)) (k v : String) : List (String × String) :=
  if (l.find? (fun p => p.1 == k)).isSome then
    l.map (fun p => if p.1 == k then (p.1, v) else p)
  else l ++ [(k, v)]

/-- `coordinator.addargs_to_dic(addargs)`: parses `key=value` items into a
dict (splitting on the first `=`), warning about and ignoring items
without `=`.  Returns the dict and the ignored items. -/
def addargs_to_dic (addargs : List String) : List (String × String) × List String :=
  addargs.foldl
    (fun (acc : List (String × String) × List String) item =>
      if item.toList.contains '=' then
        let key := String.mk (item.toList.takeWhile (· ≠ '='))
        let value := String.mk ((item.toList.dropWhile (· ≠ '=')).drop 1)
        (dictSet acc.1 key value, acc.2)
      else (acc.1, acc.2 ++ [item]))
    ([], [])

example :
    check_addargs_against_json [] [("n", ⟨some "Number", some (.int 5)⟩)]
      = .ok ([("n", .int 5)], ["n"]) := by decide
example :
    check_addargs_against_json [("n", "abc")] [("n", ⟨some "Number", some (.int 5)⟩)]
      = .error (.invalidParamType "n" "Number") := by decide
example : addargs_to_dic ["a=1", "b", "a=2"] = ([("a", "2")], ["b"]) := by decide

/-! ### The dispatcher loop and commit (`coordinator.execute_workpackage`) -/

/-- A transform step under the documented contract
`(activeDoc, contextDocs, **params) -> (activeDoc', message)`.  The steps
of a workpackage are modelled as the resolved callables (module loading
and `getattr` resolution are outside the claims). -/
def Script : Type :=
  WrapperD → List WrapperD → List (String × AVal) → Except PErr (WrapperD × String)

/-- The Python value bound to the `active_dom` variable of the dispatcher
loop: the wrapper dictionary before the first step, and — because the loop
assigns the step's return value without unpacking — the
`(wrapper, message)` tuple afterwards. -/
inductive PyObj where
  | wrap (w : WrapperD)
  | pair (w : WrapperD) (msg : String)

/-- Calling a contract-satisfying step on the current `active_dom` value:
a step's body subscripts `active_dom["dom"]`, so a call on a tuple raises
`TypeError: tuple indices must be integers or slices, not str`. -/
def applyScript (f : Script) (ctx : List WrapperD) (ps : List (String × AVal)) :
    PyObj → Except PErr (WrapperD × String)
  | .wrap w => f w ctx ps
  | .pair _ _ => .error (.typeError false)

/-- The `for script in scripts_list` loop of
`coordinator.execute_workpackage`: `active_dom = current_func(active_dom,
context_doms, **params)` with the `TypeError`-with-`"missing"` rewrite to
`KeyError`. -/
def runScripts (scripts : List Script) (a : PyObj) (ctx : List WrapperD)
    (ps : List (String × AVal)) : Except PErr PyObj :=
  match scripts with
  | [] => .ok a
  | f :: rest =>
      match applyScript f ctx ps a with
      | .error (.typeError true) =>
          .error (.keyError "The additional arguments passed are incomplete")
      | .error e => .error e
      | .ok (w, msg) => runScripts rest (.pair w msg) ctx ps

/-- A loaded workpackage (the fields `execute_workpackage` reads). -/
structure Workpackage where
  label : String
  commitResult : Bool
  scripts : List Script

/-- `coordinator.execute_workpackage`: runs the steps, then — only when
`commitResult` is set — appends the application record via `edit_appInfo`
and serializes.  The returned value models the write: `some doc` means the
file was overwritten with `doc`, `none` means no write happened; an error
means the exception propagated before any write. -/
def execute_workpackage (wp : Workpackage) (active : WrapperD)
    (ctx : List WrapperD) (ps : List (String × AVal)) (today : String) :
    Except PErr (Option XNode) :=
  match runScripts wp.scripts (.wrap active) ctx ps with
  | .error e => .error e
  | .ok a =>
      if wp.commitResult then
        match a with
        | .pair _ _ => .error (.typeError false)
        | .wrap w =>
            match edit_appInfo w.dom wp.label today with
            | .error e => .error e
            | .ok d => .ok (some d)
      else .ok none

/-! ### Alignment-engine evidence gathering
(`script_collection.get_section_info_dipl` / `_ed`,
`get_previous_at_same_depth`, `get_last_mnum`, `add_foldir`) -/

/-- A node of a tree together with its traversal context: its parent, the
tags of its proper ancestors (nearest first) and its nesting depth. -/
structure Ent where
  node : XNode
  parent : Option XNode
  anc : List String
  depth : Nat

mutual

/-- Pre-order traversal collecting each node with its context; the order
is `tree.iter()` document order. -/
def entsOf (par : Option XNode) (anc : List String) (d : Nat) : XNode → List Ent
  | .mk t a s cs =>
      ⟨.mk t a s cs, par, anc, d⟩ :: entsListOf (some (.mk t a s cs)) (t :: anc) (d + 1) cs

def entsListOf (par : Option XNode) (anc : List String) (d : Nat) :
    List XNode → List Ent
  | [] => []
  | c :: cs => entsOf par anc d c ++ entsListOf par anc d cs

end

/-- All nodes of `root` with context, in `iter()` order (root included). -/
def ents (root : XNode) : List Ent :=
  entsOf none [] 0 root

/-- Modelled from the spec: `get_depth` (referenced by
`get_previous_at_same_depth` but not defined in the sources at hand)
returns an element's tree nesting depth — "the nearest preceding
page-break marker at the same tree nesting depth".  Computed here by
looking the element up in the traversal (lxml's identity-based lookup is
modelled by structural equality). -/
def get_depth (root elem : XNode) : Option Nat :=
  ((ents root).find? (fun en => en.node == elem)).map Ent.depth

/-- `script_collection.get_previous_at_same_depth(tree, element)`: the
element immediately before `element` in the list of all nodes of the tree
(in `iter()` order) that sit at the same depth, `None` if `element` is
the first such node. -/
def get_previous_at_same_depth (root elem : XNode) : Option XNode :=
  match get_depth root elem with
  | none => none
  | some d =>
      let same := ((ents root).filter (fun en => en.depth == d)).map Ent.node
      match same.findIdx? (fun n => n == elem) with
      | some (i + 1) => same.get? i
      | _ => none

/-- Definition following the claim's words, for comparison with the
source's `get_previous_at_same_depth`: the nearest *preceding* page-break
marker at the same tree nesting depth — the last `pb` among all
same-depth nodes before the element, however far back. -/
def nearestPrecedingPbSameDepth (root elem : XNode) : Option XNode :=
  match get_depth root elem with
  | none => none
  | some d =>
      let same := ((ents root).filter (fun en => en.depth == d)).map Ent.node
      match same.findIdx? (fun n => n == elem) with
      | some i => ((same.take i).filter (fun n => n.tag == "pb")).getLast?
      | none => none

/-- One alignment-evidence entry `(measure number, folio label, tstamp)`;
each component is an optional attribute value, as in the source where
`elem.get(...)` may return `None`. -/
structure SecInfo where
  mnum : Option String
  fol : Option String
  tstamp : Option String
  deriving DecidableEq, Repr

/-- Does the node own a page-reference annotation
(`./mei:dir[@type='ref']` child)? -/
def hasRefDir (x : XNode) : Bool :=
  x.children.any (fun c => c.tag == "dir" && c.attr "type" == some "ref")

/-- The loop body of `get_section_info_dipl` for one node owning a
page-reference annotation; `.ok none` models the `continue` for nodes
inside an `orig` branch. -/
def stepDipl (helpDom : XNode) (filename : String) (en : Ent) :
    Except PErr (Option SecInfo) :=
  if en.node.tag ≠ "measure" then
    .error (.foldirParentNotMeasure filename (en.node.attrD "n" "no_n_found"))
  else if en.anc.contains "orig" then
    .ok none
  else
    let pbE : Except PErr XNode :=
      if en.anc.contains "reg" then
        match en.parent with
        | none => .error .attributeError
        | some par =>
            match par.children.filter (fun c => c.tag == "pb") with
            | [pb] => .ok pb
            | _ => .error (.morePbInReg (en.node.attrD "n" "no_n_found"))
      else
        match get_previous_at_same_depth helpDom en.node with
        | some pb =>
            if pb.tag = "pb" then .ok pb
            else .error (.noPbBefore (en.node.attrD "n" "no_n_found"))
        | none => .error (.noPbBefore (en.node.attrD "n" "no_n_found"))
    match pbE with
    | .error e => .error e
    | .ok pb =>
        match en.node.children.find?
            (fun c => c.tag == "dir" && c.attr "type" == some "ref") with
        | none => .error .attributeError
        | some foldir =>
            .ok (some ⟨en.node.attr "n", pb.attr "n", foldir.attr "tstamp"⟩)

/-- Sequential processing of the annotated nodes, collecting the entries
of the non-skipped ones in order. -/
def diplEntries (helpDom : XNode) (filename : String) :
    List Ent → Except PErr (List SecInfo)
  | [] => .ok []
  | en :: rest =>
      match stepDipl helpDom filename en with
      | .error e => .error e
      | .ok none => diplEntries helpDom filename rest
      | .ok (some si) =>
          match diplEntries helpDom filename rest with
          | .error e => .error e
          | .ok l => .ok (si :: l)

/-- `script_collection.get_section_info_dipl(help_dom)`: for every owner of
a page-reference annotation (xpath `.//mei:dir[@type='ref']/..`), derive
`(measure number, folio label, tstamp)`, the folio label coming from the
page break directly before the measure at the same depth (or from the
`pb` inside the enclosing `reg` branch); owners inside `orig` are
skipped. -/
def get_section_info_dipl (help : WrapperD) : Except PErr (List SecInfo) :=
  let pbEnts := (ents help.dom).filter (fun en => hasRefDir en.node)
  if pbEnts.isEmpty then .error (.noFoldir help.filename)
  else diplEntries help.dom help.filename pbEnts

/-- Loop of `get_section_info_ed` over the `section[@n]` elements. -/
def edEntries (filename : String) : List XNode → Except PErr (List SecInfo)
  | [] => .ok []
  | sec :: rest =>
      match (sec.descs.filter (fun x => x.tag == "measure")).head? with
      | none => .error .indexError
      | some m0 =>
          match m0.children.filter
              (fun c => c.tag == "dir" && c.attr "type" == some "ref") with
          | [] => .error (.noFoldirEd filename)
          | fd :: _ =>
              match edEntries filename rest with
              | .error e => .error e
              | .ok l => .ok (⟨m0.attr "n", sec.attr "n", fd.attr "tstamp"⟩ :: l)

/-- `script_collection.get_section_info_ed(help_dom)`: reads the existing
`section[@n]` nodes; each section's first measure must own a
page-reference annotation supplying the tstamp. -/
def get_section_info_ed (help : WrapperD) : Except PErr (List SecInfo) :=
  edEntries help.filename
    (help.dom.descs.filter (fun x => x.tag == "section" && (x.attr "n").isSome))

/-- `script_collection.get_last_mnum(root)`: `int()` of the `@n` of the
last measure (document order). -/
def get_last_mnum (root : XNode) : Except PErr Int :=
  match (root.descs.filter (fun x => x.tag == "measure")).getLast? with
  | none => .error .indexError
  | some m =>
      match pyInt (m.attrD "n" "no_n") with
      | none => .error (.valueError (m.attrD "n" "no_n"))
      | some z => .ok z

/-- The `dir`/`rend` pair built by `script_collection.add_foldir` (an
f-string renders a missing folio label as `None`). -/
def foldirNode (fol : Option String) (tstamp : String) : XNode :=
  .mk "dir" [("staff", "1"), ("tstamp", tstamp), ("place", "above"), ("type", "ref")]
    none
    [.mk "rend" [("fontstyle", "normal"), ("fontsize", "x-small")]
      (some ("fol. " ++ fol.getD "None")) []]

/-! ### The alignment engine proper
(`script_collection.add_section_foldir_from_context_to_ed`) -/

namespace XNode

mutual

/-- Remove the first descendant (document order) satisfying `p`; the flag
reports whether one was removed. -/
def remFirst (p : XNode → Bool) : XNode → XNode × Bool
  | .mk t a s cs =>
      let r := remFirstList p cs
      (.mk t a s r.1, r.2)

def remFirstList (p : XNode → Bool) : List XNode → List XNode × Bool
  | [] => ([], false)
  | c :: cs =>
      if p c then (cs, true)
      else
        let r := remFirst p c
        if r.2 then (r.1 :: cs, true)
        else
          let r' := remFirstList p cs
          (r.1 :: r'.1, r'.2)

end

mutual

/-- `manual_unwrap` applied to every `section` nested below another
`section` (the xpath `.//mei:section//mei:section` snapshot): a nested
section is replaced by its children, recursively. -/
def unwrapKids (inSec : Bool) : List XNode → List XNode
  | [] => []
  | c :: rest => unwrapOne inSec c ++ unwrapKids inSec rest

def unwrapOne (inSec : Bool) : XNode → List XNode
  | .mk t a s cs =>
      if t == "section" && inSec then unwrapKids true cs
      else [.mk t a s (unwrapKids (inSec || t == "section") cs)]

end

end XNode

/-- Python indexing of a list of length `n` (negative indices count from
the end). -/
def pyIdx (n : Nat) (i : Int) : Option Nat :=
  if i < 0 then
    if 0 ≤ (n : Int) + i then some ((n : Int) + i).toNat else none
  else if i < (n : Int) then some i.toNat else none

/-- Append `c` to the `j`-th of a list of child lists. -/
def appendAt : List (List XNode) → Nat → XNode → List (List XNode)
  | [], _, _ => []
  | l :: ls, 0, c => (l ++ [c]) :: ls
  | l :: ls, j + 1, c => l :: appendAt ls j c

/-- The `for child in section_children` walk of
`add_section_foldir_from_context_to_ed`.  State: `cur` is
`current_section` (starts at `-1`), `acc` the children so far moved into
each new section.  Result: `(error?, final current_section, acc, children
never moved out of the old section)` — on an exception the already-moved
children stay moved, mirroring the in-place mutation. -/
def walkSection (info : List SecInfo) (k : Nat) :
    List XNode → Int → List (List XNode) →
    Option PErr × Int × List (List XNode) × List XNode
  | [], cur, acc => (none, cur, acc, [])
  | child :: rest, cur, acc =>
      if child.tag == "measure" then
        let current_n := child.attrD "n" ""
        let isBoundary :=
          cur ≠ (k : Int) - 1 &&
            (match info.get? (cur + 1).toNat with
             | some nx => nx.mnum == some current_n
             | none => false)
        if isBoundary then
          let cur' := cur + 1
          match info.get? cur'.toNat with
          | none => (some .indexError, cur, acc, child :: rest)
          | some nx =>
              match nx.tstamp with
              | none =>
                  -- the measure was already appended when `add_foldir` raises
                  (some (.typeError false), cur', appendAt acc cur'.toNat child, rest)
              | some ts =>
                  walkSection info k rest cur'
                    (appendAt acc cur'.toNat (child.appendChild (foldirNode nx.fol ts)))
        else
          match pyIdx k cur with
          | none => (some .indexError, cur, acc, child :: rest)
          | some j => walkSection info k rest cur (appendAt acc j child)
      else
        match pyIdx k cur with
        | none => (some .indexError, cur, acc, child :: rest)
        | some j => walkSection info k rest cur (appendAt acc j child)

/-- The `SubElement(score, "section", {"n": fol, "facs": facs})`
comprehension: builds the new (still empty) section elements; a missing
folio label makes `lxml` raise a `TypeError`, with the sections built so
far already attached. -/
def mkNewSecs : List (SecInfo × String) → Option PErr × List XNode
  | [] => (none, [])
  | (si, facs) :: rest =>
      match si.fol with
      | none => (some (.typeError false), [])
      | some fol =>
          let r := mkNewSecs rest
          (r.1, XNode.mk "section" [("n", fol), ("facs", facs)] none [] :: r.2)

namespace XNode

mutual

/-- Rewrite the parent of the (unique) `section` child: the old section is
dropped (`newKids? = none`, the `score.remove(section)` commit) or kept
with children `l` (`newKids? = some l`), and `secs` — the newly built
sections — are appended at the end of the parent's children, which is
where `SubElement(score, …)` put them. -/
def replaceSectionIn (newKids? : Option (List XNode)) (secs : List XNode) :
    XNode → XNode
  | .mk t a s cs =>
      if cs.any (fun c => c.tag == "section") then
        .mk t a s
          ((cs.map (fun c =>
            if c.tag == "section" then
              match newKids? with
              | none => []
              | some l => [XNode.mk c.tag c.attrs c.text l]
            else [c])).flatten ++ secs)
      else .mk t a s (replaceSectionInList newKids? secs cs)

def replaceSectionInList (newKids? : Option (List XNode)) (secs : List XNode) :
    List XNode → List XNode
  | [] => []
  | c :: cs =>
      replaceSectionIn newKids? secs c :: replaceSectionInList newKids? secs cs

end

end XNode

/-- Fill the new sections with the children the walk assigned to them. -/
def fillSecs (secs : List XNode) (acc : List (List XNode)) : List XNode :=
  (secs.zip acc).map (fun p => XNode.mk p.1.tag p.1.attrs p.1.text p.2)

/-- Lines 384–395 of `script_collection.py`: when the active document has
an `expansion`, remove it and unwrap every nested section; otherwise the
tree is untouched (the `elif section_in_section:` arm only *constructs* a
`RuntimeError` without raising it, so nothing happens there either). -/
def sectionRewrite (active : WrapperD) : XNode :=
  if pyIn "ed" active.notationtype then
    match active.dom.findDesc (fun x => x.tag == "expansion") with
    | some _ =>
        let r := XNode.remFirst (fun x => x.tag == "expansion") active.dom
        XNode.mk r.1.tag r.1.attrs r.1.text (XNode.unwrapKids false r.1.children)
    | none => active.dom
  else active.dom

/-- Lines 404–412: evidence gathering, in the mode chosen by the context
document's notation type; the last-measure-number comparison happens only
in the non-`dipl` branch. -/
def gatherInfo (active help : WrapperD) (root1 : XNode) : Except PErr (List SecInfo) :=
  if pyIn "dipl" help.notationtype then get_section_info_dipl help
  else
    match get_last_mnum root1 with
    | .error e => .error e
    | .ok a =>
        match get_last_mnum help.dom with
        | .error e => .error e
        | .ok b =>
            if a = b then get_section_info_ed help
            else .error (.mnumMismatch active.filename help.filename)

/-- Lines 414–468: surface/section count check, creation of the new
section elements, the distribution walk, and the final removal of the old
section (or the state in which an exception leaves the tree). -/
def rebuildStage (active : WrapperD) (root1 sec0 : XNode) (info : List SecInfo) :
    Option PErr × XNode :=
  let surfaces :=
    (root1.descs.filter (fun x => x.tag == "facsimile")).flatMap
      (fun f => f.children.filter (fun c => c.tag == "surface"))
  if surfaces.length ≠ info.length then
    (some (.surfaceMismatch active.filename), root1)
  else
    let surface_id := surfaces.map (fun s => "#" ++ s.attrD "xml:id" "None")
    match mkNewSecs (info.zip surface_id) with
    | (some e, partial0) =>
        (some e, root1.replaceSectionIn (some sec0.children) partial0)
    | (none, secs) =>
        let k := info.length
        let w := walkSection info k sec0.children (-1) (secs.map (fun _ => []))
        match w.1 with
        | some e =>
            (some e, root1.replaceSectionIn (some w.2.2.2) (fillSecs secs w.2.2.1))
        | none =>
            if w.2.1 ≠ (k : Int) - 1 then
              (some (.misalignment active.filename),
                root1.replaceSectionIn (some []) (fillSecs secs w.2.2.1))
            else
              (none, root1.replaceSectionIn none (fillSecs secs w.2.2.1))

/-- `script_collection.add_section_foldir_from_context_to_ed(active_dom,
context_doms, getElemFrom)`.  Returns `(error?, final tree of the active
document)`; the tree is reported also in the error case because the
source mutates the document in place, so an exception leaves whatever
mutations already happened. -/
def add_section_foldir_from_context_to_ed (active : WrapperD)
    (ctxs : List WrapperD) (getElemFrom : String) : Option PErr × XNode :=
  if ¬ pyIn "ed" active.notationtype then
    (some (.mustBeEd active.filename), active.dom)
  else
    match findContextDom ctxs getElemFrom with
    | none => (some (.ctxNotFound getElemFrom), active.dom)
    | some help =>
        let root1 := sectionRewrite active
        match root1.descs.filter (fun x => x.tag == "section") with
        | [sec0] =>
            match gatherInfo active help root1 with
            | .error e => (some e, root1)
            | .ok info => rebuildStage active root1 sec0 info
        | _ => (some (.sectionCountNot1 active.filename), root1)

/-! ### `script_collection.add_finis_to_last_measure` and
`script_collection.guess_string_width` -/

/-- Python `round()` on an exact value: nearest integer, ties to even. -/
def pyRound (a : Frac) : Int :=
  let q := if a.den < 0 then -a.num else a.num
  let d := if a.den < 0 then -a.den else a.den
  let fl := Int.fdiv q d
  let r2 := 2 * (q - fl * d)
  if r2 < d then fl
  else if r2 > d then fl + 1
  else if fl % 2 = 0 then fl else fl + 1

/-- The per-character weight of `guess_string_width`'s nested
`get_line_width` (the `caps` entry of the weight table is dead: the code
tests `char.isupper()` instead). -/
def charWeight (c : Char) : Frac :=
  if "MWm@W".toList.contains c then ⟨15, 10⟩
  else if "ilj|!:.tI[]".toList.contains c then ⟨4, 10⟩
  else if 'A' ≤ c && c ≤ 'Z' then ⟨12, 10⟩
  else if c = '\t' then ⟨40, 10⟩
  else ⟨10, 10⟩

def lineWidth (l : List Char) : Frac :=
  l.foldl (fun w c => w.add (charWeight c)) ⟨0, 1⟩

/-- `a < b` on exact values (denominators positive in all uses). -/
def fracLt (a b : Frac) : Bool := a.num * b.den < b.num * a.den

/-- `script_collection.guess_string_width(text)`: the maximal heuristic
width over the lines of `text` (`0` for empty text). -/
def guess_string_width (text : String) : Frac :=
  if text = "" then ⟨0, 1⟩
  else
    let lines := (text.splitOn "\n").map (fun s => lineWidth s.toList)
    lines.foldl (fun best w => if fracLt best w then w else best) ⟨0, 1⟩

namespace XNode

mutual

/-- Replace the `n`-th (0-based, document order) descendant satisfying `p`
by its image under `f`.  The state is the number of matches still to be
skipped, `none` once the replacement happened. -/
def mapNthDesc (p : XNode → Bool) (f : XNode → XNode) :
    XNode → Option Nat → XNode × Option Nat
  | .mk t a s cs, st =>
      let r := mapNthDescList p f cs st
      (.mk t a s r.1, r.2)

def mapNthDescList (p : XNode → Bool) (f : XNode → XNode) :
    List XNode → Option Nat → List XNode × Option Nat
  | [], st => ([], st)
  | c :: cs, none => (c :: cs, none)
  | c :: cs, some n =>
      if p c then
        if n = 0 then (f c :: cs, none)
        else
          let r := mapNthDesc p f c (some (n - 1))
          let r' := mapNthDescList p f cs r.2
          (r.1 :: r'.1, r'.2)
      else
        let r := mapNthDesc p f c (some n)
        let r' := mapNthDescList p f cs r.2
        (r.1 :: r'.1, r'.2)

end

end XNode

/-- `script_collection.add_finis_to_last_measure(active_dom, context_doms,
finisText)`: appends a `finis` `dir` to the last measure, its tstamp one
past the measure's accumulated duration (scaled by the declared meter
unit, or by 4 with doubling when no meter signature exists). -/
def add_finis_to_last_measure (active : WrapperD) (ctxs : List WrapperD)
    (finisText : String) : Except PErr (WrapperD × String) :=
  if finisText = "" then .ok (active, "No finis added because none given")
  else
    let root := active.dom
    let meterSig := root.findDesc (fun x => x.tag == "meterSig")
    if ¬ (root.descs.filter
          (fun x => x.tag == "dir" && x.attr "type" == some "finis")).isEmpty then
      .error .finisAlready
    else
      match (root.descs.filter (fun x => x.tag == "measure")).getLast? with
      | none => .error .indexError
      | some measure =>
          match measure.findDesc (fun x => x.tag == "layer") with
          | none => .error (.typeError false)
          | some layer =>
              match dur_length layer with
              | .error e => .error e
              | .ok t0 =>
                  let tstampE : Except PErr Frac :=
                    match meterSig with
                    | some ms =>
                        match pyInt (ms.attrD "unit" "4") with
                        | none => .error (.valueError (ms.attrD "unit" "4"))
                        | some u => .ok (t0.mul (Frac.ofInt u))
                    | none =>
                        let rec dbl : Nat → Frac → Except PErr Frac
                          | 0, _ =>
                              .error (.problematicTstamp (measure.attrD "n" "n_not_found"))
                          | fuel + 1, t =>
                              if t.isInt then .ok t else dbl fuel (t.mul ⟨2, 1⟩)
                        dbl 10 (t0.mul ⟨4, 1⟩)
                  match tstampE with
                  | .error e => .error e
                  | .ok ts =>
                      let vu :=
                        toString (pyRound ((guess_string_width finisText).mul ⟨25, 10⟩) + 5)
                      let dir := XNode.mk "dir"
                        [("staff", if pyIn "ed_CMN" active.notationtype then "2" else "1"),
                         ("tstamp", (ts.add ⟨1, 1⟩).pyStr),
                         ("place", if pyIn "ed_CMN" active.notationtype then "above"
                                   else "within"),
                         ("type", "finis"),
                         ("ho", vu ++ "vu")]
                        none
                        [XNode.mk "rend" [("halign", "right")] (some finisText) []]
                      let nMeasures :=
                        (root.descs.filter (fun x => x.tag == "measure")).length
                      let root' :=
                        (root.mapNthDesc (fun x => x.tag == "measure")
                          (fun m => m.appendChild dir) (some (nMeasures - 1))).1
                      .ok ({ active with dom := root' }, "")

/-! ### Concrete documents and workpackages used in the theorems -/

/-- A facsimile surface with an `xml:id`. -/
def surfF (id : String) : XNode := .mk "surface" [("xml:id", id)] none []

/-- A page-reference annotation with a tstamp. -/
def refDirF (ts : String) : XNode := .mk "dir" [("type", "ref"), ("tstamp", ts)] none []

/-- A measure with `@n` and children. -/
def measF (n : String) (kids : List XNode) : XNode := .mk "measure" [("n", n)] none kids

/-- A page break with `@n`. -/
def pbF (n : String) : XNode := .mk "pb" [("n", n)] none []

/-- An edited document: two facsimile surfaces, one section holding
measures 1 and 2. -/
def edDoc : XNode :=
  .mk "mei" [] none
    [.mk "music" [] none
      [.mk "facsimile" [] none [surfF "s1", surfF "s2"],
       .mk "body" [] none
        [.mk "mdiv" [] none
          [.mk "score" [] none
            [.mk "section" [] none [measF "1" [], measF "2" []]]]]]]

/-- A diplomatic context: two folio pages `1r`/`1v` starting at measures 5
and 6, each opening measure carrying a page-reference annotation. -/
def diplDoc : XNode :=
  .mk "mei" [] none
    [.mk "music" [] none
      [.mk "body" [] none
        [.mk "mdiv" [] none
          [.mk "score" [] none
            [.mk "section" [] none
              [pbF "1r", measF "5" [refDirF "1"], pbF "1v", measF "6" [refDirF "1"]]]]]]]

def edW : WrapperD := ⟨"LW_n1_1r-2v_enc_ed_GLT", "ed_GLT", edDoc⟩

def diplW : WrapperD := ⟨"LW_n1_1r-2v_enc_dipl_GLT", "dipl_GLT", diplDoc⟩

/-- An edited document with an `expansion` and nested sections, but only
one facsimile surface (so the surface count cannot match the two folio
groups of `diplDoc`). -/
def edExpDoc : XNode :=
  .mk "mei" [] none
    [.mk "music" [] none
      [.mk "facsimile" [] none [surfF "s1"],
       .mk "body" [] none
        [.mk "mdiv" [] none
          [.mk "score" [] none
            [.mk "expansion" [("plist", "#a #b")] none [],
             .mk "section" [] none
              [.mk "section" [("xml:id", "a")] none [measF "1" []],
               .mk "section" [("xml:id", "b")] none [measF "2" []]]]]]]]

def edExpW : WrapperD := ⟨"LW_n2_1r_enc_ed_GLT", "ed_GLT", edExpDoc⟩

/-- A diplomatic context in which the *second* measure of a page also
carries a page-reference annotation: the element directly before it at
the same depth is a measure, not a `pb`, although a `pb` at the same
depth does precede it further back. -/
def diplDoc8 : XNode :=
  .mk "mei" [] none
    [.mk "music" [] none
      [.mk "body" [] none
        [.mk "mdiv" [] none
          [.mk "score" [] none
            [.mk "section" [] none
              [pbF "1v", measF "1" [refDirF "1"], measF "2" [refDirF "1"]]]]]]]

def diplW8 : WrapperD := ⟨"LW_n3_1v_enc_dipl_GLT", "dipl_GLT", diplDoc8⟩

/-- An edition-style context whose last measure is numbered 6 (while
`edDoc`'s is numbered 2). -/
def edCtxDoc : XNode :=
  .mk "mei" [] none
    [.mk "music" [] none
      [.mk "body" [] none
        [.mk "mdiv" [] none
          [.mk "score" [] none
            [.mk "section" [("n", "1r")] none [measF "5" [refDirF "1"]],
             .mk "section" [("n", "1v")] none [measF "6" [refDirF "1"]]]]]]]

def edCtxW : WrapperD := ⟨"LW_n1_1r-2v_enc_ed_CMN", "ed_CMN", edCtxDoc⟩

/-- The tree in which the engine leaves `edDoc` when the walk misaligns:
the two new sections were appended to the score (the second one holding
the two moved measures) and the original section remains, emptied. -/
def edDocAfterMisalign : XNode :=
  .mk "mei" [] none
    [.mk "music" [] none
      [.mk "facsimile" [] none [surfF "s1", surfF "s2"],
       .mk "body" [] none
        [.mk "mdiv" [] none
          [.mk "score" [] none
            [.mk "section" [] none [],
             .mk "section" [("n", "1r"), ("facs", "#s1")] none [],
             .mk "section" [("n", "1v"), ("facs", "#s2")] none
               [measF "1" [], measF "2" []]]]]]]

/-- The traversal entry of `diplDoc`'s measure 5 (context: its parent
section, ancestor tags nearest-first, depth). -/
def ent5 : Ent :=
  ⟨measF "5" [refDirF "1"],
   some (.mk "section" [] none
     [pbF "1r", measF "5" [refDirF "1"], pbF "1v", measF "6" [refDirF "1"]]),
   ["section", "score", "mdiv", "body", "music", "mei"], 6⟩

/-- The traversal entry of `diplDoc`'s measure 6. -/
def ent6 : Ent :=
  ⟨measF "6" [refDirF "1"],
   some (.mk "section" [] none
     [pbF "1r", measF "5" [refDirF "1"], pbF "1v", measF "6" [refDirF "1"]]),
   ["section", "score", "mdiv", "body", "music", "mei"], 6⟩

/-- The evidence `get_section_info_dipl` gathers from `diplDoc`. -/
def diplInfo : List SecInfo :=
  [⟨some "5", some "1r", some "1"⟩, ⟨some "6", some "1v", some "1"⟩]

/-- A document with a meter signature (unit 4) and one measure holding a
layer of two quarter notes. -/
def finisDoc : XNode :=
  .mk "mei" [] none
    [.mk "music" [] none
      [.mk "body" [] none
        [.mk "mdiv" [] none
          [.mk "score" [] none
            [.mk "scoreDef" [] none
              [.mk "meterSig" [("count", "2"), ("unit", "4")] none []],
             .mk "section" [] none
               [measF "1" [.mk "layer" [] none [note "4" none, note "4" none]]]]]]]]

def finisW : WrapperD := ⟨"LW_n1_1r_enc_ed_CMN", "ed_CMN", finisDoc⟩

/-- Transform steps satisfying the documented contract. -/
def okScriptA : Script := fun w _ _ => .ok (w, "msgA")

def okScriptB : Script := fun w _ _ => .ok (w, "msgB")

/-- A step that raises. -/
def failScript : Script := fun _ _ _ => .error (.runtimeError "step failed")

/-- A document with an (empty) `appInfo` in its header. -/
def appDoc : XNode :=
  .mk "mei" [] none
    [.mk "meiHead" [] none [.mk "encodingDesc" [] none [.mk "appInfo" [] none []]]]

def appW : WrapperD := ⟨"LW_n1_1r-2v_enc_ed_GLT", "ed_GLT", appDoc⟩

def wpEmpty : Workpackage := ⟨"label0", true, []⟩

def wpFail : Workpackage := ⟨"labelF", true, [failScript]⟩

/-- `appDoc` after the provenance/application record was appended on
2026-10-12 with label `label0`. -/
def appDocAfter : XNode :=
  .mk "mei" [] none
    [.mk "meiHead" [] none
      [.mk "encodingDesc" [] none
        [.mk "appInfo" [] none
          [.mk "application" [("isodate", "2026-10-12")] none
            [.mk "name" [] (some "GitHub Action Scripts") [],
             .mk "p" [] (some "label0") []]]]]]

/-! ## Theorems about the claims -/

/-- **C5.** For every element whose duration-bearing descendants carry an
integer base denominator `dur = d` and dot count `dots = k`, `dur_length`
sums `(1/d) * (2 - 2^-k)` whole-note units per leaf, recursing into
container children but skipping `sic`/`orig` branches; in particular
`dur=4,dots=0 ↦ 0.25`, `dur=4,dots=1 ↦ 0.375`, `dur=2,dots=2 ↦ 0.875`,
and a measure of two quarter notes totals `0.5`. -/
theorem C5_dur_length_formula :
    (∀ (d k : ℕ), 0 < d →
      (leafVal ⟨(d : Int), 1⟩ ((k : ℕ) : Int)).toQ
        = (1 / (d : ℚ)) * (2 - (1/2 : ℚ) ^ k)) ∧
    (dur_length (.mk "measure" [] none [note "4" none])).map Frac.toQ
      = .ok (0.25 : ℚ) ∧
    (dur_length (.mk "measure" [] none [note "4" (some "1")])).map Frac.toQ
      = .ok (0.375 : ℚ) ∧
    (dur_length (.mk "measure" [] none [note "2" (some "2")])).map Frac.toQ
      = .ok (0.875 : ℚ) ∧
    (dur_length (.mk "measure" [] none [note "4" none, note "4" none])).map Frac.toQ
      = .ok (0.5 : ℚ) ∧
    (dur_length (.mk "measure" [] none
      [.mk "beam" [] none [note "4" none, note "4" none],
       .mk "choice" [] none [.mk "orig" [] none [note "1" none],
                             .mk "reg" [] none [note "4" none]],
       .mk "choice" [] none [.mk "sic" [] none [note "1" none],
                             .mk "corr" [] none [note "4" none]],
       note "4" none])).map Frac.toQ = .ok (1.25 : ℚ) := by
  refine ⟨?_, ?_, ?_, ?_, ?_, ?_⟩
  · intro d k hd
    have hq : (d : ℚ) ≠ 0 := Nat.cast_ne_zero.mpr hd.ne'
    have hpow : ((2 : ℚ) ^ k) ≠ 0 := pow_ne_zero _ two_ne_zero
    simp only [leafVal, pow2, Frac.div, Frac.mul, Frac.sub, Frac.toQ]
    rw [if_pos (by positivity)]
    push_cast [Int.toNat_natCast]
    field_simp
    ring
  · have h : dur_length (.mk "measure" [] none [note "4" none]) = .ok ⟨4, 16⟩ := by
      decide
    rw [h]; simp [Except.map, Frac.toQ]; norm_num
  · have h : dur_length (.mk "measure" [] none [note "4" (some "1")])
        = .ok ⟨12, 32⟩ := by decide
    rw [h]; simp [Except.map, Frac.toQ]; norm_num
  · have h : dur_length (.mk "measure" [] none [note "2" (some "2")])
        = .ok ⟨14, 16⟩ := by decide
    rw [h]; simp [Except.map, Frac.toQ]; norm_num
  · have h : dur_length (.mk "measure" [] none [note "4" none, note "4" none])
        = .ok ⟨128, 256⟩ := by decide
    rw [h]; simp [Except.map, Frac.toQ]; norm_num
  · have h : dur_length (.mk "measure" [] none
      [.mk "beam" [] none [note "4" none, note "4" none],
       .mk "choice" [] none [.mk "orig" [] none [note "1" none],
                             .mk "reg" [] none [note "4" none]],
       .mk "choice" [] none [.mk "sic" [] none [note "1" none],
                             .mk "corr" [] none [note "4" none]],
       note "4" none]) = .ok ⟨1310720, 1048576⟩ := by decide
    rw [h]; simp [Except.map, Frac.toQ]; norm_num

/-- Witness for C5: the formula conjunct applied at `dur = 4`, `dots = 1`. -/
theorem C5_dur_length_formula_witness :
    (leafVal ⟨((4 : ℕ) : Int), 1⟩ (((1 : ℕ) : ℕ) : Int)).toQ
      = (1 / ((4 : ℕ) : ℚ)) * (2 - (1/2 : ℚ) ^ (1 : ℕ)) :=
  C5_dur_length_formula.1 4 1 (by norm_num)

/-- **C7.** The parameter validator, per declared parameter: a supplied
value is coerced to the declared type (`Number` → integer via `int()`,
`String` → passthrough) and a coercion failure raises the
invalid-parameter-type error; an unsupplied parameter with a default gets
the default plus a warning; an unsupplied parameter without a default
raises the missing-parameter error.  Including the spec's example schema
`{"n": {"type": "Number", "default": 5}}`. -/
theorem C7_param_validator :
    (∀ (key v : String) (d : Option AVal) (addargs : List (String × String)),
        lookupStr addargs key = some v →
        check_addargs_against_json addargs [(key, ⟨some "Number", d⟩)]
          = (match pyInt v with
             | some z => .ok ([(key, .int z)], [])
             | none => .error (.invalidParamType key "Number"))) ∧
    (∀ (key v : String) (d : Option AVal) (addargs : List (String × String)),
        lookupStr addargs key = some v →
        check_addargs_against_json addargs [(key, ⟨some "String", d⟩)]
          = .ok ([(key, .str v)], [])) ∧
    (∀ (key : String) (ty : Option String) (dv : AVal)
        (addargs : List (String × String)),
        lookupStr addargs key = none →
        check_addargs_against_json addargs [(key, ⟨ty, some dv⟩)]
          = .ok ([(key, dv)], [key])) ∧
    (∀ (key : String) (ty : Option String) (addargs : List (String × String)),
        lookupStr addargs key = none →
        check_addargs_against_json addargs [(key, ⟨ty, none⟩)]
          = .error (.missingParam key)) ∧
    check_addargs_against_json [] [("n", ⟨some "Number", some (.int 5)⟩)]
      = .ok ([("n", .int 5)], ["n"]) ∧
    check_addargs_against_json [("n", "abc")] [("n", ⟨some "Number", some (.int 5)⟩)]
      = .error (.invalidParamType "n" "Number") := by
  refine ⟨?_, ?_, ?_, ?_, by decide, by decide⟩
  · intro key v d addargs h
    simp only [check_addargs_against_json, h]
    cases hp : pyInt v <;> simp [hp]
  · intro key v d addargs h
    simp [check_addargs_against_json, h]
  · intro key ty dv addargs h
    simp [check_addargs_against_json, h]
  · intro key ty addargs h
    simp [check_addargs_against_json, h]

/-- Witness for C7: each of the four general conjuncts applied at a
concrete schema and argument map. -/
theorem C7_param_validator_witness :
    check_addargs_against_json [("n", "7")] [("n", ⟨some "Number", none⟩)]
      = .ok ([("n", .int 7)], []) ∧
    check_addargs_against_json [("s", "x")] [("s", ⟨some "String", none⟩)]
      = .ok ([("s", .str "x")], []) ∧
    check_addargs_against_json [] [("n", ⟨some "Number", some (.int 5)⟩)]
      = .ok ([("n", .int 5)], ["n"]) ∧
    check_addargs_against_json [] [("k", ⟨some "Number", none⟩)]
      = .error (.missingParam "k") :=
  ⟨(C7_param_validator.1 "n" "7" none [("n", "7")] (by decide)).trans (by decide),
   C7_param_validator.2.1 "s" "x" none [("s", "x")] (by decide),
   C7_param_validator.2.2.1 "n" (some "Number") (.int 5) [] (by decide),
   C7_param_validator.2.2.2.1 "k" (some "Number") [] (by decide)⟩

/-- Helper for C10: a successful validation's keys are the schema's. -/
theorem check_addargs_ok_keys :
    ∀ (params : List (String × ParamSpec)) (addargs : List (String × String))
      (m : List (String × AVal)) (w : List String),
      check_addargs_against_json addargs params = .ok (m, w) →
      m.map Prod.fst = params.map Prod.fst := by
  intro params
  induction params with
  | nil =>
      intro addargs m w h
      simp only [check_addargs_against_json] at h
      cases h
      simp
  | cons p tl ih =>
      obtain ⟨key, spec⟩ := p
      intro addargs m w h
      cases hl : lookupStr addargs key with
      | none =>
          cases hd : spec.default? with
          | none =>
              simp only [check_addargs_against_json, hl, hd] at h
              exact Except.noConfusion h
          | some dv =>
              cases hrec : check_addargs_against_json addargs tl with
              | error e =>
                  simp only [check_addargs_against_json, hl, hd, hrec] at h
                  exact Except.noConfusion h
              | ok mw =>
                  obtain ⟨m', w'⟩ := mw
                  simp only [check_addargs_against_json, hl, hd, hrec] at h
                  cases h
                  simpa using ih addargs m' w' hrec
      | some v =>
          cases ht : spec.type? with
          | none =>
              simp only [check_addargs_against_json, hl, ht] at h
              exact Except.noConfusion h
          | some ty =>
              simp only [check_addargs_against_json, hl, ht] at h
              by_cases hty : ty = "Number"
              · rw [if_pos hty] at h
                cases hp : pyInt v with
                | none => rw [hp] at h; exact Except.noConfusion h
                | some z =>
                    rw [hp] at h
                    cases hrec : check_addargs_against_json addargs tl with
                    | error e => rw [hrec] at h; exact Except.noConfusion h
                    | ok mw =>
                        obtain ⟨m', w'⟩ := mw
                        simp only [hrec, Except.ok.injEq, Prod.mk.injEq] at h
                        obtain ⟨h1, h2⟩ := h
                        subst h1
                        simpa using ih addargs m' w' hrec
              · rw [if_neg hty] at h
                by_cases hty2 : ty = "String"
                · rw [if_pos hty2] at h
                  cases hrec : check_addargs_against_json addargs tl with
                  | error e => rw [hrec] at h; exact Except.noConfusion h
                  | ok mw =>
                      obtain ⟨m', w'⟩ := mw
                      simp only [hrec, Except.ok.injEq, Prod.mk.injEq] at h
                      obtain ⟨h1, h2⟩ := h
                      subst h1
                      simpa using ih addargs m' w' hrec
                · rw [if_neg hty2] at h
                  exact Except.noConfusion h

/-- **C10 (implicit).** A successful validation returns a map whose keys
are exactly the schema's declared parameter names, so a user-supplied
`key=value` with an undeclared key is dropped and never reaches a
transform step. -/
theorem C10_undeclared_args_dropped :
    ∀ (params : List (String × ParamSpec)) (addargs : List (String × String))
      (m : List (String × AVal)) (w : List String),
      check_addargs_against_json addargs params = .ok (m, w) →
      m.map Prod.fst = params.map Prod.fst ∧
      ∀ k : String, k ∉ params.map Prod.fst →
        m.find? (fun p => p.1 == k) = none := by
  intro params addargs m w h
  have hmap := check_addargs_ok_keys params addargs m w h
  refine ⟨hmap, ?_⟩
  intro k hk
  rw [List.find?_eq_none]
  intro x hx
  simp only [beq_iff_eq]
  intro hxk
  exact hk (hmap ▸ hxk ▸ List.mem_map_of_mem Prod.fst hx)

/-- Witness for C10: schema `{"n": Number}` with the undeclared extra
argument `extra=1` supplied. -/
theorem C10_undeclared_args_dropped_witness :
    ([("n", AVal.int 5)].map Prod.fst
        = [("n", (⟨some "Number", none⟩ : ParamSpec))].map Prod.fst) ∧
    ∀ k : String, k ∉ [("n", (⟨some "Number", none⟩ : ParamSpec))].map Prod.fst →
      [("n", AVal.int 5)].find? (fun p => p.1 == k) = none :=
  C10_undeclared_args_dropped [("n", ⟨some "Number", none⟩)]
    [("n", "5"), ("extra", "1")] [("n", .int 5)] [] (by decide)

/-- **C4 (code bug).** `determine_notationtype` returns the regex's group
3 — the bare tablature type (`"GLT"`), not the full prefixed value
(`"dipl_GLT"`) that the spec's `DocumentWrapper` enum and the code's own
consumers (`compare_mnums` matching on `"dipl_GLT"`/`"ed_GLT"`,
`add_header_from_context` testing `"dipl" in notationtype`) require; a
wrapper built from a `..._enc_dipl_GLT` file therefore never satisfies a
transform requiring context `"dipl_GLT"`, even though the sibling is
present.  Non-matching filenames do raise the naming-convention error. -/
theorem C4_notationtype_missing_prefix :
    determine_notationtype "LW1_n01_1r-2v_enc_dipl_GLT" = .ok "GLT" ∧
    ("GLT" : String) ≠ "dipl_GLT" ∧
    (∀ doc : XNode, parse_and_wrap_dom "LW1_n01_1r-2v_enc_dipl_GLT" doc
        = .ok ⟨"LW1_n01_1r-2v_enc_dipl_GLT", "GLT", doc⟩) ∧
    (∀ (doc : XNode) (active : WrapperD),
        add_facs_from_context active
          [⟨"LW1_n01_1r-2v_enc_dipl_GLT", "GLT", doc⟩] "dipl_GLT"
          = .error (.ctxNotFound "dipl_GLT")) ∧
    determine_notationtype "badname" = .error (.nameError "badname") := by
  refine ⟨by decide, by decide, ?_, ?_, by decide⟩
  · intro doc
    rfl
  · intro doc active
    rfl

/-- **C3 (code bug).** The dispatcher loop assigns a step's return value —
the `(wrapper, message)` tuple — to `active_dom` without unpacking it, so
the step after the first receives the tuple, not the wrapper, and its
`active_dom["dom"]` subscript raises a `TypeError`; no message string is
accumulated anywhere.  The commit phase's own `active_dom["dom"]`
likewise fails after a single successful step. -/
theorem C3_dispatcher_passes_tuple :
    runScripts [okScriptA] (.wrap appW) [] [] = .ok (.pair appW "msgA") ∧
    runScripts [okScriptA, okScriptB] (.wrap appW) [] []
      = .error (.typeError false) ∧
    execute_workpackage ⟨"lbl", true, [okScriptA]⟩ appW [] [] "2026-10-12"
      = .error (.typeError false) :=
  ⟨rfl, rfl, rfl⟩

/-- **C1.** The coordinator serializes (and appends the provenance record)
only when every step completed without exception and `commitResult` is
true: a written document is the `edit_appInfo` image of a successful run
with `commitResult = true`, and a failing step propagates its exception
with no write at all. -/
theorem C1_commit_only_after_success :
    ∀ (wp : Workpackage) (a : WrapperD) (ctx : List WrapperD)
      (ps : List (String × AVal)) (today : String),
      (∀ d : XNode, execute_workpackage wp a ctx ps today = .ok (some d) →
        wp.commitResult = true ∧
        ∃ w : WrapperD, runScripts wp.scripts (.wrap a) ctx ps = .ok (.wrap w) ∧
          edit_appInfo w.dom wp.label today = .ok d) ∧
      (∀ e : PErr, runScripts wp.scripts (.wrap a) ctx ps = .error e →
        execute_workpackage wp a ctx ps today = .error e) := by
  intro wp a ctx ps today
  constructor
  · intro d h
    unfold execute_workpackage at h
    cases hr : runScripts wp.scripts (.wrap a) ctx ps with
    | error e =>
        simp only [hr] at h
        exact Except.noConfusion h
    | ok obj =>
        simp only [hr] at h
        by_cases hc : wp.commitResult = true
        · rw [if_pos hc] at h
          cases obj with
          | pair w m => exact Except.noConfusion h
          | wrap w =>
              cases he : edit_appInfo w.dom wp.label today with
              | error e =>
                  simp only [he] at h
                  exact Except.noConfusion h
              | ok d' =>
                  simp only [he, Except.ok.injEq, Option.some.injEq] at h
                  exact ⟨hc, w, rfl, by rw [he, h]⟩
        · rw [if_neg hc] at h
          simp only [Except.ok.injEq] at h
          exact Option.noConfusion h
  · intro e h
    unfold execute_workpackage
    rw [h]

/-- **C2 counterexample.** An invocation of the alignment engine that
raises (walk misalignment) and does *not* leave the tree as handed: the
input had one section, the tree after the exception has three — the newly
built Section nodes were not discarded. -/
theorem C2_counterexample_mutation_on_raise :
    (add_section_foldir_from_context_to_ed edW [diplW] "dipl_GLT").1
      = some (.misalignment "LW_n1_1r-2v_enc_ed_GLT") ∧
    ((add_section_foldir_from_context_to_ed edW [diplW] "dipl_GLT").2.descs.filter
        (fun x => x.tag == "section")).length = 3 ∧
    (edW.dom.descs.filter (fun x => x.tag == "section")).length = 1 := by
  decide

/-- **C2 (amended).** The engine is atomic only up to the
expansion/section rewrite: failures of the `ed`-notation-type check or of
the context lookup leave the tree unchanged, but the surface-count
mismatch is detected only *after* the expansion removal and
nested-section unwrap have mutated the tree, and on walk misalignment the
newly built Section nodes (holding the moved measures) and the emptied
original Section remain in the tree — nothing is rolled back. -/
theorem C2_atomic_only_before_rewrite :
    (∀ (active : WrapperD) (ctxs : List WrapperD) (g : String),
      pyIn "ed" active.notationtype = false →
      add_section_foldir_from_context_to_ed active ctxs g
        = (some (.mustBeEd active.filename), active.dom)) ∧
    (∀ (active : WrapperD) (ctxs : List WrapperD) (g : String),
      pyIn "ed" active.notationtype = true →
      findContextDom ctxs g = none →
      add_section_foldir_from_context_to_ed active ctxs g
        = (some (.ctxNotFound g), active.dom)) ∧
    (add_section_foldir_from_context_to_ed edExpW [diplW] "dipl_GLT"
        = (some (.surfaceMismatch "LW_n2_1r_enc_ed_GLT"), sectionRewrite edExpW) ∧
      (sectionRewrite edExpW).descs.filter (fun x => x.tag == "expansion") = [] ∧
      (edExpW.dom.descs.filter (fun x => x.tag == "expansion")).length = 1) ∧
    add_section_foldir_from_context_to_ed edW [diplW] "dipl_GLT"
      = (some (.misalignment "LW_n1_1r-2v_enc_ed_GLT"), edDocAfterMisalign) := by
  refine ⟨?_, ?_, ⟨rfl, rfl, rfl⟩, rfl⟩
  · intro active ctxs g h
    unfold add_section_foldir_from_context_to_ed
    rw [if_pos]
    simp [h]
  · intro active ctxs g h1 h2
    unfold add_section_foldir_from_context_to_ed
    rw [if_neg (by simp [h1])]
    simp only [h2]

/-- Witness for C2 (amended): the two pre-rewrite failures leave concrete
documents untouched. -/
theorem C2_atomic_only_before_rewrite_witness :
    add_section_foldir_from_context_to_ed diplW [] "dipl_GLT"
      = (some (.mustBeEd "LW_n1_1r-2v_enc_dipl_GLT"), diplW.dom) ∧
    add_section_foldir_from_context_to_ed edW [] "dipl_GLT"
      = (some (.ctxNotFound "dipl_GLT"), edW.dom) :=
  ⟨C2_atomic_only_before_rewrite.1 diplW [] "dipl_GLT" (by decide),
   C2_atomic_only_before_rewrite.2.1 edW [] "dipl_GLT" (by decide) rfl⟩

/-- Helper for C9: no error raised inside `stepDipl` is the
last-measure-number mismatch. -/
theorem stepDipl_err_not_mm (helpDom : XNode) (fn : String) (en : Ent) (e : PErr)
    (h : stepDipl helpDom fn en = .error e) : e.isMnumMismatch = false := by
  unfold stepDipl at h
  by_cases h1 : en.node.tag ≠ "measure"
  · rw [if_pos h1] at h
    cases h
    rfl
  · rw [if_neg h1] at h
    by_cases h2 : en.anc.contains "orig" = true
    · rw [if_pos h2] at h
      exact Except.noConfusion h
    · rw [if_neg h2] at h
      simp only [] at h
      by_cases h3 : en.anc.contains "reg" = true
      · simp only [if_pos h3] at h
        cases hp : en.parent with
        | none =>
            simp only [hp] at h
            cases h
            rfl
        | some par =>
            simp only [hp] at h
            cases hf : List.filter (fun c => c.tag == "pb") par.children with
            | nil =>
                simp only [hf] at h
                cases h
                rfl
            | cons pb rest =>
                cases rest with
                | nil =>
                    simp only [hf] at h
                    cases hfd : en.node.children.find?
                        (fun c => c.tag == "dir" && c.attr "type" == some "ref") with
                    | none =>
                        simp only [hfd] at h
                        cases h
                        rfl
                    | some fd =>
                        simp only [hfd] at h
                        exact Except.noConfusion h
                | cons pb2 rest2 =>
                    simp only [hf] at h
                    cases h
                    rfl
      · simp only [if_neg h3] at h
        cases hprev : get_previous_at_same_depth helpDom en.node with
        | none =>
            simp only [hprev] at h
            cases h
            rfl
        | some pb =>
            simp only [hprev] at h
            by_cases htag : pb.tag = "pb"
            · simp only [if_pos htag] at h
              cases hfd : en.node.children.find?
                  (fun c => c.tag == "dir" && c.attr "type" == some "ref") with
              | none =>
                  simp only [hfd] at h
                  cases h
                  rfl
              | some fd =>
                  simp only [hfd] at h
                  exact Except.noConfusion h
            · simp only [if_neg htag] at h
              cases h
              rfl

/-- Helper for C9: no error of the `get_section_info_dipl` loop is the
last-measure-number mismatch. -/
theorem diplEntries_err_not_mm (helpDom : XNode) (fn : String) :
    ∀ (es : List Ent) (e : PErr),
      diplEntries helpDom fn es = .error e → e.isMnumMismatch = false := by
  intro es
  induction es with
  | nil =>
      intro e he
      simp only [diplEntries] at he
      exact Except.noConfusion he
  | cons en rest ih =>
      intro e he
      unfold diplEntries at he
      cases hs : stepDipl helpDom fn en with
      | error e' =>
          simp only [hs] at he
          cases he
          exact stepDipl_err_not_mm helpDom fn en _ hs
      | ok r =>
          cases r with
          | none =>
              simp only [hs] at he
              exact ih e he
          | some si =>
              simp only [hs] at he
              cases hrec : diplEntries helpDom fn rest with
              | error e'' =>
                  simp only [hrec] at he
                  cases he
                  exact ih _ hrec
              | ok l =>
                  simp only [hrec] at he
                  exact Except.noConfusion he

/-- Helper for C9: `get_section_info_dipl` never raises the
last-measure-number mismatch. -/
theorem get_section_info_dipl_err_not_mm (help : WrapperD) (e : PErr)
    (h : get_section_info_dipl help = .error e) : e.isMnumMismatch = false := by
  unfold get_section_info_dipl at h
  simp only [] at h
  split at h
  · cases h
    rfl
  · exact diplEntries_err_not_mm help.dom help.filename _ e h

/-- Helper for C9: the section-creation comprehension only raises
`TypeError`. -/
theorem mkNewSecs_err_not_mm :
    ∀ (l : List (SecInfo × String)) (e : PErr),
      (mkNewSecs l).1 = some e → e.isMnumMismatch = false := by
  intro l
  induction l with
  | nil => intro e h; exact Option.noConfusion h
  | cons p rest ih =>
      intro e h
      obtain ⟨si, facs⟩ := p
      unfold mkNewSecs at h
      cases hf : si.fol with
      | none =>
          simp only [hf] at h
          cases h
          rfl
      | some fol =>
          simp only [hf] at h
          exact ih e h

/-- Helper for C9: the distribution walk only raises `IndexError` or
`TypeError`. -/
theorem walkSection_err_not_mm (info : List SecInfo) (k : Nat) :
    ∀ (children : List XNode) (cur : Int) (acc : List (List XNode)) (e : PErr),
      (walkSection info k children cur acc).1 = some e →
      e.isMnumMismatch = false := by
  intro children
  induction children with
  | nil => intro cur acc e h; exact Option.noConfusion h
  | cons child rest ih =>
      intro cur acc e h
      unfold walkSection at h
      simp only [] at h
      repeat' split at h
      all_goals
        first
          | exact Option.noConfusion h
          | (cases h; rfl)
          | exact ih _ _ _ h

/-- Helper for C9: the rebuild stage (surface check, section creation,
walk, commit) never raises the last-measure-number mismatch. -/
theorem rebuildStage_err_not_mm (active : WrapperD) (root1 sec0 : XNode)
    (info : List SecInfo) (e : PErr)
    (h : (rebuildStage active root1 sec0 info).1 = some e) :
    e.isMnumMismatch = false := by
  unfold rebuildStage at h
  simp only [] at h
  repeat' split at h
  all_goals
    first
      | exact Option.noConfusion h
      | (cases h; rfl)
      | (rename_i heq
         cases h
         exact mkNewSecs_err_not_mm _ _ (by rw [heq]))
      | (rename_i heq
         cases h
         exact walkSection_err_not_mm info info.length sec0.children (-1) _ _ (by rw [heq]))

/-- **C9.** The last-measure-number equality check runs exactly when the
context document is not diplomatic: in the edition branch a differing
last measure number raises before any `SectionInfo` is gathered (and
before any mutation beyond the expansion rewrite), while with a
diplomatic context no invocation can ever produce the mismatch error. -/
theorem C9_lastmnum_check_iff_ed :
    (∀ (active : WrapperD) (ctxs : List WrapperD) (g : String) (help : WrapperD)
        (sec0 : XNode) (a b : Int),
      pyIn "ed" active.notationtype = true →
      findContextDom ctxs g = some help →
      pyIn "dipl" help.notationtype = false →
      (sectionRewrite active).descs.filter (fun x => x.tag == "section") = [sec0] →
      get_last_mnum (sectionRewrite active) = .ok a →
      get_last_mnum help.dom = .ok b →
      a ≠ b →
      add_section_foldir_from_context_to_ed active ctxs g
        = (some (.mnumMismatch active.filename help.filename), sectionRewrite active)) ∧
    (∀ (active : WrapperD) (ctxs : List WrapperD) (g : String) (help : WrapperD)
        (x y : String),
      findContextDom ctxs g = some help →
      pyIn "dipl" help.notationtype = true →
      (add_section_foldir_from_context_to_ed active ctxs g).1
        ≠ some (.mnumMismatch x y)) := by
  constructor
  · intro active ctxs g help sec0 a b h1 h2 h3 h4 h5 h6 h7
    unfold add_section_foldir_from_context_to_ed
    rw [if_neg (by simp [h1])]
    simp only [h2, h4]
    unfold gatherInfo
    rw [if_neg (by simp [h3])]
    simp only [h5, h6]
    rw [if_neg h7]
  · intro active ctxs g help x y h2 h3
    unfold add_section_foldir_from_context_to_ed
    by_cases h1 : pyIn "ed" active.notationtype = true
    · rw [if_neg (by simp [h1])]
      simp only [h2]
      cases hsec : (sectionRewrite active).descs.filter (fun x => x.tag == "section") with
      | nil => simp
      | cons s0 srest =>
          cases srest with
          | nil =>
              dsimp only
              unfold gatherInfo
              rw [if_pos (by simp [h3])]
              cases hinfo : get_section_info_dipl help with
              | error e =>
                  simp only [hinfo]
                  intro hcontra
                  have hmm := get_section_info_dipl_err_not_mm help e hinfo
                  have he : e = .mnumMismatch x y := Option.some.inj hcontra
                  rw [he] at hmm
                  simp [PErr.isMnumMismatch] at hmm
              | ok info =>
                  simp only [hinfo]
                  intro hcontra
                  have hmm := rebuildStage_err_not_mm active (sectionRewrite active)
                    s0 info _ hcontra
                  simp [PErr.isMnumMismatch] at hmm
          | cons s1 srest2 => simp
    · rw [if_pos (by simpa using h1)]
      simp

/-- Witness for C9: an edition-style context with a differing last measure
number makes the engine raise the mismatch before gathering evidence,
while the diplomatic-context run (which also fails, by misalignment)
cannot produce that error. -/
theorem C9_lastmnum_check_iff_ed_witness :
    add_section_foldir_from_context_to_ed edW [edCtxW] "ed_CMN"
      = (some (.mnumMismatch "LW_n1_1r-2v_enc_ed_GLT" "LW_n1_1r-2v_enc_ed_CMN"),
         sectionRewrite edW) ∧
    (add_section_foldir_from_context_to_ed edW [diplW] "dipl_GLT").1
      ≠ some (.mnumMismatch "LW_n1_1r-2v_enc_ed_GLT" "LW_n1_1r-2v_enc_dipl_GLT") :=
  ⟨C9_lastmnum_check_iff_ed.1 edW [edCtxW] "ed_CMN" edCtxW
      (.mk "section" [] none [measF "1" [], measF "2" []]) 2 6
      (by decide) rfl (by decide) rfl rfl rfl (by decide),
   C9_lastmnum_check_iff_ed.2 edW [diplW] "dipl_GLT" diplW
      "LW_n1_1r-2v_enc_ed_GLT" "LW_n1_1r-2v_enc_dipl_GLT" rfl (by decide)⟩

/-- Helper for C8: a successful `diplEntries` run processed every entry
with `stepDipl`, and every non-skipped result is in the output list. -/
theorem diplEntries_ok_mem (helpDom : XNode) (fn : String) :
    ∀ (es : List Ent) (l : List SecInfo),
      diplEntries helpDom fn es = .ok l →
      ∀ en ∈ es, ∃ r, stepDipl helpDom fn en = .ok r ∧
        ∀ si, r = some si → si ∈ l := by
  intro es
  induction es with
  | nil =>
      intro l h en hen
      exact absurd hen (List.not_mem_nil en)
  | cons e0 rest ih =>
      intro l h en hen
      unfold diplEntries at h
      cases hs : stepDipl helpDom fn e0 with
      | error e' =>
          simp only [hs] at h
          exact Except.noConfusion h
      | ok r0 =>
          cases r0 with
          | none =>
              simp only [hs] at h
              rcases List.mem_cons.mp hen with he | he
              · subst he
                exact ⟨none, hs, fun si hsi => Option.noConfusion hsi⟩
              · exact ih l h en he
          | some si0 =>
              simp only [hs] at h
              cases hrec : diplEntries helpDom fn rest with
              | error e'' =>
                  simp only [hrec] at h
                  exact Except.noConfusion h
              | ok l' =>
                  simp only [hrec, Except.ok.injEq] at h
                  subst h
                  rcases List.mem_cons.mp hen with he | he
                  · subst he
                    refine ⟨some si0, hs, fun si hsi => ?_⟩
                    cases hsi
                    exact List.mem_cons_self _ _
                  · obtain ⟨r, hr, hmem⟩ := ih l' hrec en he
                    exact ⟨r, hr, fun si hsi => List.mem_cons_of_mem _ (hmem si hsi)⟩

/-- **C8 (amended).** In a successful diplomatic evidence-gathering run,
every page-reference annotation owner is a Measure; for owners outside
`orig` branches, the emitted entry's folio label comes from the element
*directly* preceding the measure at the same nesting depth — which the
engine requires to be a page break (it does not scan further back) — or,
inside a `reg` branch, from the single `pb` child of the measure's
parent. -/
theorem C8_folio_from_directly_preceding_pb :
    ∀ (help : WrapperD) (l : List SecInfo),
      get_section_info_dipl help = .ok l →
      ∀ en ∈ (ents help.dom).filter (fun en => hasRefDir en.node),
        en.node.tag = "measure" ∧
        (en.anc.contains "orig" = false →
          ∃ fd, en.node.children.find?
              (fun c => c.tag == "dir" && c.attr "type" == some "ref") = some fd ∧
            ((en.anc.contains "reg" = true →
              ∃ par pb, en.parent = some par ∧
                par.children.filter (fun c => c.tag == "pb") = [pb] ∧
                (⟨en.node.attr "n", pb.attr "n", fd.attr "tstamp"⟩ : SecInfo) ∈ l) ∧
             (en.anc.contains "reg" = false →
              ∃ pb, get_previous_at_same_depth help.dom en.node = some pb ∧
                pb.tag = "pb" ∧
                (⟨en.node.attr "n", pb.attr "n", fd.attr "tstamp"⟩ : SecInfo) ∈ l))) := by
  intro help l hok en hen
  have hstep : ∃ r, stepDipl help.dom help.filename en = .ok r ∧
      ∀ si, r = some si → si ∈ l := by
    unfold get_section_info_dipl at hok
    simp only [] at hok
    split at hok
    · exact Except.noConfusion hok
    · exact diplEntries_ok_mem help.dom help.filename _ l hok en hen
  obtain ⟨r, hr, hmem⟩ := hstep
  unfold stepDipl at hr
  by_cases h1 : en.node.tag ≠ "measure"
  · rw [if_pos h1] at hr
    exact Except.noConfusion hr
  · have htag : en.node.tag = "measure" := not_ne_iff.mp h1
    refine ⟨htag, ?_⟩
    intro horig
    rw [if_neg h1] at hr
    rw [if_neg (by rw [horig]; exact Bool.false_ne_true)] at hr
    simp only [] at hr
    by_cases hreg : en.anc.contains "reg" = true
    · simp only [if_pos hreg] at hr
      cases hp : en.parent with
      | none =>
          simp only [hp] at hr
          exact Except.noConfusion hr
      | some par =>
          simp only [hp] at hr
          cases hf : List.filter (fun c => c.tag == "pb") par.children with
          | nil =>
              simp only [hf] at hr
              exact Except.noConfusion hr
          | cons pb rest =>
              cases rest with
              | nil =>
                  simp only [hf] at hr
                  cases hfd : en.node.children.find?
                      (fun c => c.tag == "dir" && c.attr "type" == some "ref") with
                  | none =>
                      simp only [hfd] at hr
                      exact Except.noConfusion hr
                  | some fd =>
                      simp only [hfd] at hr
                      refine ⟨fd, rfl, ?_, ?_⟩
                      · intro _
                        exact ⟨par, pb, rfl, hf,
                          hmem _ (Except.ok.inj hr).symm⟩
                      · intro hcontra
                        rw [hcontra] at hreg
                        exact Bool.noConfusion hreg
              | cons pb2 rest2 =>
                  simp only [hf] at hr
                  exact Except.noConfusion hr
    · have hreg' : en.anc.contains "reg" = false := by simpa using hreg
      simp only [if_neg hreg] at hr
      cases hprev : get_previous_at_same_depth help.dom en.node with
      | none =>
          simp only [hprev] at hr
          exact Except.noConfusion hr
      | some pb =>
          simp only [hprev] at hr
          by_cases hptag : pb.tag = "pb"
          · simp only [if_pos hptag] at hr
            cases hfd : en.node.children.find?
                (fun c => c.tag == "dir" && c.attr "type" == some "ref") with
            | none =>
                simp only [hfd] at hr
                exact Except.noConfusion hr
            | some fd =>
                simp only [hfd] at hr
                refine ⟨fd, rfl, ?_, ?_⟩
                · intro hcontra
                  rw [hcontra] at hreg'
                  exact Bool.noConfusion hreg'
                · intro _
                  exact ⟨pb, rfl, hptag, hmem _ (Except.ok.inj hr).symm⟩
          · simp only [if_neg hptag] at hr
            exact Except.noConfusion hr

/-- **C8 counterexample.** Against the claim as stated: in `diplDoc8` the
annotation on measure 2 is owned by a Measure outside `orig`, and a
nearest preceding page break at the same depth exists (`pb n="1v"`, two
positions back), yet evidence gathering produces no entry — it raises
`No pb found before 2` because the *directly* preceding same-depth
element is measure 1, not a page break. -/
theorem C8_counterexample_nearest_pb_not_taken :
    get_section_info_dipl diplW8 = .error (.noPbBefore "2") ∧
    nearestPrecedingPbSameDepth diplDoc8 (measF "2" [refDirF "1"]) = some (pbF "1v") := by
  exact ⟨by decide, rfl⟩

/-- Witness for C8 (amended): the run over `diplDoc` succeeds and the
conclusion holds for the entry of measure 5. -/
theorem C8_folio_from_directly_preceding_pb_witness :
    ent5.node.tag = "measure" ∧
    (ent5.anc.contains "orig" = false →
      ∃ fd, ent5.node.children.find?
          (fun c => c.tag == "dir" && c.attr "type" == some "ref") = some fd ∧
        ((ent5.anc.contains "reg" = true →
          ∃ par pb, ent5.parent = some par ∧
            par.children.filter (fun c => c.tag == "pb") = [pb] ∧
            (⟨ent5.node.attr "n", pb.attr "n", fd.attr "tstamp"⟩ : SecInfo) ∈ diplInfo) ∧
         (ent5.anc.contains "reg" = false →
          ∃ pb, get_previous_at_same_depth diplW.dom ent5.node = some pb ∧
            pb.tag = "pb" ∧
            (⟨ent5.node.attr "n", pb.attr "n", fd.attr "tstamp"⟩ : SecInfo) ∈ diplInfo))) :=
  C8_folio_from_directly_preceding_pb diplW diplInfo rfl ent5
    (by rw [show (ents diplW.dom).filter (fun en => hasRefDir en.node)
              = [ent5, ent6] from rfl]
        exact List.mem_cons_self _ _)

theorem descsList_append : ∀ (l1 l2 : List XNode),
    XNode.descsList (l1 ++ l2) = XNode.descsList l1 ++ XNode.descsList l2 := by
  intro l1 l2
  induction l1 with
  | nil => simp [XNode.descsList]
  | cons c cs ih => simp [XNode.descsList, ih]

theorem mapNthDescList_none (p : XNode → Bool) (f : XNode → XNode) :
    ∀ l : List XNode, XNode.mapNthDescList p f l none = (l, none) := by
  intro l
  cases l with
  | nil => rfl
  | cons c cs => rfl

/-- Inserting a measure-free subtree as the last child of a measure keeps
the measure list of the surrounding document, only replacing that measure;
`mapNthDescList … (some n)` with `n` counting measures in document order
finds the `n`-th measure and otherwise leaves the tree unchanged. -/
theorem mapNth_measure_spec (dirN : XNode)
    (hdirTag : (dirN.tag == "measure") = false)
    (hdirDescs : dirN.descs.filter (fun x => x.tag == "measure") = []) :
    ∀ (fuel : Nat) (l : List XNode), sizeOf l ≤ fuel →
      (∀ y ∈ XNode.descsList l, (y.tag == "measure") = true →
        y.descs.filter (fun x => x.tag == "measure") = []) →
      ∀ n : Nat,
        (((XNode.descsList l).filter (fun x => x.tag == "measure")).length ≤ n →
          XNode.mapNthDescList (fun x => x.tag == "measure")
              (fun mm => mm.appendChild dirN) l (some n)
            = (l, some (n - ((XNode.descsList l).filter
                (fun x => x.tag == "measure")).length))) ∧
        (∀ m, ((XNode.descsList l).filter (fun x => x.tag == "measure")).get? n
            = some m →
          (XNode.mapNthDescList (fun x => x.tag == "measure")
              (fun mm => mm.appendChild dirN) l (some n)).2 = none ∧
          (XNode.descsList ((XNode.mapNthDescList (fun x => x.tag == "measure")
              (fun mm => mm.appendChild dirN) l (some n)).1)).filter
              (fun x => x.tag == "measure")
            = ((XNode.descsList l).filter (fun x => x.tag == "measure")).take n
              ++ m.appendChild dirN
                :: ((XNode.descsList l).filter (fun x => x.tag == "measure")).drop
                    (n + 1)) := by
  intro fuel
  induction fuel with
  | zero =>
      intro l hsz
      cases l with
      | nil => simp at hsz
      | cons c cs => simp at hsz
  | succ fuel ih =>
      intro l hsz hnest n
      cases l with
      | nil =>
          constructor
          · intro _
            simp [XNode.descsList, XNode.mapNthDescList]
          · intro m hm
            simp [XNode.descsList] at hm
      | cons c cs =>
          obtain ⟨t, a, s, cs0⟩ := c
          have hszc : sizeOf cs0 ≤ fuel := by
            simp at hsz
            omega
          have hszcs : sizeOf cs ≤ fuel := by
            simp at hsz
            omega
          have hnest0 : ∀ y ∈ XNode.descsList cs0, (y.tag == "measure") = true →
              y.descs.filter (fun x => x.tag == "measure") = [] := by
            intro y hy
            exact hnest y (by
              show y ∈ XNode.descsList (XNode.mk t a s cs0 :: cs)
              simp only [XNode.descsList, XNode.descs]
              exact List.mem_cons_of_mem _ (List.mem_append_left _ hy))
          have hnestcs : ∀ y ∈ XNode.descsList cs, (y.tag == "measure") = true →
              y.descs.filter (fun x => x.tag == "measure") = [] := by
            intro y hy
            exact hnest y (by
              show y ∈ XNode.descsList (XNode.mk t a s cs0 :: cs)
              simp only [XNode.descsList, XNode.descs]
              exact List.mem_cons_of_mem _ (List.mem_append_right _ hy))
          -- abbreviations
          have hdl : XNode.descsList (XNode.mk t a s cs0 :: cs)
              = XNode.mk t a s cs0 :: (XNode.descsList cs0 ++ XNode.descsList cs) := by
            simp [XNode.descsList, XNode.descs]
          by_cases pc : ((XNode.mk t a s cs0).tag == "measure") = true
          · -- the head is a measure: its subtree holds no measures
            have hA : (XNode.descsList cs0).filter (fun x => x.tag == "measure")
                = [] := by
              have := hnest (XNode.mk t a s cs0) (by
                rw [hdl]; exact List.mem_cons_self _ _) pc
              simpa [XNode.descs] using this
            have hL : (XNode.descsList (XNode.mk t a s cs0 :: cs)).filter
                (fun x => x.tag == "measure")
                = XNode.mk t a s cs0
                  :: (XNode.descsList cs).filter (fun x => x.tag == "measure") := by
              rw [hdl]
              simp [List.filter_append, hA, pc]
            cases n with
            | zero =>
                constructor
                · intro hlen
                  rw [hL] at hlen
                  simp at hlen
                · intro m hm
                  rw [hL] at hm
                  simp at hm
                  subst hm
                  constructor
                  · simp [XNode.mapNthDescList, pc]
                  · simp only [XNode.mapNthDescList, pc, if_true, if_pos rfl]
                    have hfc : XNode.descs
                        ((XNode.mk t a s cs0).appendChild dirN)
                        = XNode.descsList cs0 ++ (dirN :: dirN.descs) := by
                      simp [XNode.appendChild, XNode.descs, XNode.children,
                        XNode.tag, XNode.attrs, XNode.text, descsList_append,
                        XNode.descsList]
                    rw [hL]
                    simp only [List.take_zero, List.drop_succ_cons, List.drop_zero,
                      List.nil_append]
                    show (XNode.descsList ((XNode.mk t a s cs0).appendChild dirN :: cs)).filter
                        (fun x => x.tag == "measure") = _
                    simp only [XNode.descsList]
                    rw [hfc]
                    have htagf : (((XNode.mk t a s cs0).appendChild dirN).tag
                        == "measure") = true := by
                      simpa [XNode.appendChild, XNode.tag] using pc
                    simp [List.filter_append, List.filter_cons, htagf, hA, hdirTag,
                      hdirDescs]
            | succ n' =>
                have hstep : XNode.mapNthDescList (fun x => x.tag == "measure")
                    (fun mm => mm.appendChild dirN) (XNode.mk t a s cs0 :: cs)
                    (some (n' + 1))
                    = (XNode.mk t a s cs0 ::
                        (XNode.mapNthDescList (fun x => x.tag == "measure")
                          (fun mm => mm.appendChild dirN) cs (some n')).1,
                       (XNode.mapNthDescList (fun x => x.tag == "measure")
                          (fun mm => mm.appendChild dirN) cs (some n')).2) := by
                  have hin := ((ih cs0 hszc hnest0 n').1 (by simp [hA]))
                  simp only [XNode.mapNthDescList, pc, if_true]
                  rw [if_neg (by omega)]
                  simp only [XNode.mapNthDesc]
                  simp only [Nat.add_sub_cancel]
                  rw [hin]
                  simp [hA]
                constructor
                · intro hlen
                  rw [hL] at hlen
                  simp only [List.length_cons] at hlen
                  have hlen' : ((XNode.descsList cs).filter
                      (fun x => x.tag == "measure")).length ≤ n' := by omega
                  have := (ih cs hszcs hnestcs n').1 hlen'
                  rw [hstep, this]
                  rw [hL]
                  simp only [List.length_cons]
                  congr 1
                  congr 1
                  omega
                · intro m hm
                  rw [hL] at hm
                  simp only [List.get?_cons_succ] at hm
                  obtain ⟨h2a, h2b⟩ := (ih cs hszcs hnestcs n').2 m hm
                  rw [hstep]
                  refine ⟨h2a, ?_⟩
                  have hexp : XNode.descsList (XNode.mk t a s cs0 ::
                      (XNode.mapNthDescList (fun x => x.tag == "measure")
                        (fun mm => mm.appendChild dirN) cs (some n')).1)
                      = XNode.mk t a s cs0 :: (XNode.descsList cs0
                        ++ XNode.descsList
                          ((XNode.mapNthDescList (fun x => x.tag == "measure")
                            (fun mm => mm.appendChild dirN) cs (some n')).1)) := by
                    simp [XNode.descsList, XNode.descs]
                  rw [hexp, hL]
                  simp only [List.filter_cons, List.filter_append, hA, pc, if_true,
                    List.take_succ_cons, List.drop_succ_cons, h2b]
                  simp
          · -- head not a measure
            have pcf : ((XNode.mk t a s cs0).tag == "measure") = false := by
              simpa using pc
            have hL : (XNode.descsList (XNode.mk t a s cs0 :: cs)).filter
                (fun x => x.tag == "measure")
                = (XNode.descsList cs0).filter (fun x => x.tag == "measure")
                  ++ (XNode.descsList cs).filter (fun x => x.tag == "measure") := by
              rw [hdl]
              simp [List.filter_append, List.filter_cons, pcf]
            by_cases hn : n < ((XNode.descsList cs0).filter
                (fun x => x.tag == "measure")).length
            · -- the target measure is inside the head
              constructor
              · intro hlen
                rw [hL] at hlen
                simp only [List.length_append] at hlen
                omega
              · intro m hm
                rw [hL] at hm
                rw [List.get?_append hn] at hm
                obtain ⟨h2a, h2b⟩ := (ih cs0 hszc hnest0 n).2 m hm
                have hstep : XNode.mapNthDescList (fun x => x.tag == "measure")
                    (fun mm => mm.appendChild dirN) (XNode.mk t a s cs0 :: cs)
                    (some n)
                    = (XNode.mk t a s
                        (XNode.mapNthDescList (fun x => x.tag == "measure")
                          (fun mm => mm.appendChild dirN) cs0 (some n)).1 :: cs,
                       none) := by
                  simp only [XNode.mapNthDescList, pcf, Bool.false_eq_true, if_false]
                  simp only [XNode.mapNthDesc]
                  rw [h2a, mapNthDescList_none]
                rw [hstep]
                refine ⟨rfl, ?_⟩
                have hexp : XNode.descsList (XNode.mk t a s
                    (XNode.mapNthDescList (fun x => x.tag == "measure")
                      (fun mm => mm.appendChild dirN) cs0 (some n)).1 :: cs)
                    = XNode.mk t a s
                        (XNode.mapNthDescList (fun x => x.tag == "measure")
                          (fun mm => mm.appendChild dirN) cs0 (some n)).1
                      :: (XNode.descsList
                          ((XNode.mapNthDescList (fun x => x.tag == "measure")
                            (fun mm => mm.appendChild dirN) cs0 (some n)).1)
                        ++ XNode.descsList cs) := by
                  simp [XNode.descsList, XNode.descs]
                have hpcf2 : ((XNode.mk t a s
                    (XNode.mapNthDescList (fun x => x.tag == "measure")
                      (fun mm => mm.appendChild dirN) cs0 (some n)).1).tag
                    == "measure") = false := pcf
                rw [hexp, hL]
                simp only [List.filter_cons, hpcf2, Bool.false_eq_true,
                  if_false, List.filter_append, h2b]
                rw [List.take_append_eq_append_take, List.drop_append_eq_append_drop]
                have hz1 : n - ((XNode.descsList cs0).filter
                    (fun x => x.tag == "measure")).length = 0 := by omega
                have hz2 : n + 1 - ((XNode.descsList cs0).filter
                    (fun x => x.tag == "measure")).length = 0 := by omega
                rw [hz1, hz2]
                simp [List.append_assoc]
            · -- the target index lies beyond the head's measures
              have hge : ((XNode.descsList cs0).filter
                  (fun x => x.tag == "measure")).length ≤ n := by omega
              have hfirst := (ih cs0 hszc hnest0 n).1 hge
              have hstep : XNode.mapNthDescList (fun x => x.tag == "measure")
                  (fun mm => mm.appendChild dirN) (XNode.mk t a s cs0 :: cs) (some n)
                  = (XNode.mk t a s cs0 ::
                      (XNode.mapNthDescList (fun x => x.tag == "measure")
                        (fun mm => mm.appendChild dirN) cs
                        (some (n - ((XNode.descsList cs0).filter
                          (fun x => x.tag == "measure")).length))).1,
                     (XNode.mapNthDescList (fun x => x.tag == "measure")
                        (fun mm => mm.appendChild dirN) cs
                        (some (n - ((XNode.descsList cs0).filter
                          (fun x => x.tag == "measure")).length))).2) := by
                simp only [XNode.mapNthDescList, pcf, Bool.false_eq_true, if_false]
                simp only [XNode.mapNthDesc]
                rw [hfirst]
              constructor
              · intro hlen
                rw [hL] at hlen
                simp only [List.length_append] at hlen
                have := (ih cs hszcs hnestcs
                    (n - ((XNode.descsList cs0).filter
                      (fun x => x.tag == "measure")).length)).1 (by omega)
                rw [hstep, this, hL]
                simp only [List.length_append]
                congr 2
                omega
              · intro m hm
                rw [hL] at hm
                rw [List.get?_append_right hge] at hm
                obtain ⟨h2a, h2b⟩ := (ih cs hszcs hnestcs
                    (n - ((XNode.descsList cs0).filter
                      (fun x => x.tag == "measure")).length)).2 m hm
                rw [hstep]
                refine ⟨h2a, ?_⟩
                have hexp2 : XNode.descsList (XNode.mk t a s cs0 ::
                    (XNode.mapNthDescList (fun x => x.tag == "measure")
                      (fun mm => mm.appendChild dirN) cs
                      (some (n - ((XNode.descsList cs0).filter
                        (fun x => x.tag == "measure")).length))).1)
                    = XNode.mk t a s cs0 :: (XNode.descsList cs0
                      ++ XNode.descsList
                        ((XNode.mapNthDescList (fun x => x.tag == "measure")
                          (fun mm => mm.appendChild dirN) cs
                          (some (n - ((XNode.descsList cs0).filter
                            (fun x => x.tag == "measure")).length))).1)) := by
                  simp [XNode.descsList, XNode.descs]
                rw [hexp2, hL]
                simp only [List.filter_cons, pcf, Bool.false_eq_true,
                  if_false, List.filter_append, h2b]
                rw [List.take_append_eq_append_take, List.drop_append_eq_append_drop]
                rw [List.take_of_length_le hge,
                  List.drop_eq_nil_of_le (show ((XNode.descsList cs0).filter
                    (fun x => x.tag == "measure")).length ≤ n + 1 by omega)]
                have hidx : n - ((XNode.descsList cs0).filter
                    (fun x => x.tag == "measure")).length + 1
                    = n + 1 - ((XNode.descsList cs0).filter
                      (fun x => x.tag == "measure")).length := by omega
                rw [hidx]
                simp [List.append_assoc]

/-- **C6.** For a document declaring a meter signature with unit `u`,
whose last measure's layer is `L`, given a non-empty `finisText` and no
finis marker yet, `add_finis_to_last_measure` appends to the last measure
a `dir` of type `finis` whose tstamp attribute is the rendering of
`dur_length(L) * u + 1`.  (The two technical hypotheses — measures do not
nest, and the duration's denominator is nonzero — hold for every real MEI
document.) -/
theorem C6_finis_tstamp :
    ∀ (active : WrapperD) (ctxs : List WrapperD) (finisText : String)
      (ms : XNode) (u : Int) (lastM layer : XNode) (t0 : Frac),
      finisText ≠ "" →
      active.dom.findDesc (fun x => x.tag == "meterSig") = some ms →
      pyInt (ms.attrD "unit" "4") = some u →
      (active.dom.descs.filter
        (fun x => x.tag == "dir" && x.attr "type" == some "finis")).isEmpty = true →
      (active.dom.descs.filter (fun x => x.tag == "measure")).getLast? = some lastM →
      lastM.findDesc (fun x => x.tag == "layer") = some layer →
      dur_length layer = .ok t0 →
      (∀ y ∈ active.dom.descs, (y.tag == "measure") = true →
        y.descs.filter (fun x => x.tag == "measure") = []) →
      t0.den ≠ 0 →
      ∃ (w : WrapperD) (dirN : XNode),
        add_finis_to_last_measure active ctxs finisText = .ok (w, "") ∧
        dirN.attr "type" = some "finis" ∧
        dirN.attr "tstamp" = some ((t0.mul (Frac.ofInt u)).add ⟨1, 1⟩).pyStr ∧
        ((t0.mul (Frac.ofInt u)).add ⟨1, 1⟩).toQ = t0.toQ * (u : ℚ) + 1 ∧
        (w.dom.descs.filter (fun x => x.tag == "measure")).getLast?
          = some (lastM.appendChild dirN) := by
  intro active ctxs finisText ms u lastM layer t0 hft hms hunit hnofinis hlast
    hlayer hdur hnest hden
  unfold add_finis_to_last_measure
  rw [if_neg hft]
  simp only [hms, hnofinis, hlast, hlayer, hdur, hunit]
  rw [if_neg (by simp)]
  refine ⟨_, XNode.mk "dir"
      [("staff", if pyIn "ed_CMN" active.notationtype = true then "2" else "1"),
       ("tstamp", ((t0.mul (Frac.ofInt u)).add ⟨1, 1⟩).pyStr),
       ("place", if pyIn "ed_CMN" active.notationtype = true then "above" else "within"),
       ("type", "finis"),
       ("ho", toString (pyRound ((guess_string_width finisText).mul ⟨25, 10⟩) + 5)
          ++ "vu")]
      none [XNode.mk "rend" [("halign", "right")] (some finisText) []],
    rfl, rfl, rfl, ?_, ?_⟩
  · simp only [Frac.mul, Frac.add, Frac.ofInt, Frac.toQ]
    push_cast
    have hq : (t0.den : ℚ) ≠ 0 := Int.cast_ne_zero.mpr hden
    field_simp
  · obtain ⟨adom, hadom⟩ : ∃ d, active.dom = d := ⟨active.dom, rfl⟩
    obtain ⟨t, a, s, cs⟩ := adom
    rw [hadom] at hlast hnest ⊢
    have hL := hlast
    rw [show XNode.descs (XNode.mk t a s cs) = XNode.descsList cs from rfl] at hL
    have hlen : ((XNode.descsList cs).filter (fun x => x.tag == "measure")).length
        ≠ 0 := by
      intro hzero
      rw [List.length_eq_zero] at hzero
      rw [hzero] at hL
      exact Option.noConfusion hL
    have hget : ((XNode.descsList cs).filter (fun x => x.tag == "measure")).get?
        (((XNode.descsList cs).filter (fun x => x.tag == "measure")).length - 1)
        = some lastM := by
      rw [← List.getLast?_eq_get?]
      exact hL
    have hnest' : ∀ y ∈ XNode.descsList cs, (y.tag == "measure") = true →
        y.descs.filter (fun x => x.tag == "measure") = [] := by
      intro y hy
      exact hnest y (by simpa [XNode.descs] using hy)
    have hspec := (mapNth_measure_spec
      (XNode.mk "dir"
        [("staff", if pyIn "ed_CMN" active.notationtype = true then "2" else "1"),
         ("tstamp", ((t0.mul (Frac.ofInt u)).add ⟨1, 1⟩).pyStr),
         ("place", if pyIn "ed_CMN" active.notationtype = true then "above" else "within"),
         ("type", "finis"),
         ("ho", toString (pyRound ((guess_string_width finisText).mul ⟨25, 10⟩) + 5)
            ++ "vu")]
        none
        [XNode.mk "rend" [("halign", "right")] (some finisText) []])
      rfl rfl (sizeOf cs) cs le_rfl hnest'
      (((XNode.descsList cs).filter (fun x => x.tag == "measure")).length - 1)).2
      lastM hget
    obtain ⟨hsnd, hfil⟩ := hspec
    show (List.filter (fun x => x.tag == "measure")
        (XNode.descsList ((XNode.mapNthDescList (fun x => x.tag == "measure")
          (fun mm => mm.appendChild (XNode.mk "dir"
        [("staff", if pyIn "ed_CMN" active.notationtype = true then "2" else "1"),
         ("tstamp", ((t0.mul (Frac.ofInt u)).add ⟨1, 1⟩).pyStr),
         ("place", if pyIn "ed_CMN" active.notationtype = true then "above" else "within"),
         ("type", "finis"),
         ("ho", toString (pyRound ((guess_string_width finisText).mul ⟨25, 10⟩) + 5)
            ++ "vu")]
        none
        [XNode.mk "rend" [("halign", "right")] (some finisText) []])) cs
          (some ((List.filter (fun x => x.tag == "measure")
            (XNode.descsList cs)).length - 1))).1))).getLast?
      = some (lastM.appendChild (XNode.mk "dir"
        [("staff", if pyIn "ed_CMN" active.notationtype = true then "2" else "1"),
         ("tstamp", ((t0.mul (Frac.ofInt u)).add ⟨1, 1⟩).pyStr),
         ("place", if pyIn "ed_CMN" active.notationtype = true then "above" else "within"),
         ("type", "finis"),
         ("ho", toString (pyRound ((guess_string_width finisText).mul ⟨25, 10⟩) + 5)
            ++ "vu")]
        none
        [XNode.mk "rend" [("halign", "right")] (some finisText) []]))
    rw [hfil]
    rw [List.drop_eq_nil_of_le (by omega)]
    exact List.getLast?_concat _

/-- Witness for C6: the two-quarter-note measure under a `unit=4` meter
signature gets a finis `dir` with tstamp `0.5 * 4 + 1 = 3.0`. -/
theorem C6_finis_tstamp_witness :
    ∃ (w : WrapperD) (dirN : XNode),
      add_finis_to_last_measure finisW [] "Finis." = .ok (w, "") ∧
      dirN.attr "type" = some "finis" ∧
      dirN.attr "tstamp"
        = some (((⟨128, 256⟩ : Frac).mul (Frac.ofInt 4)).add ⟨1, 1⟩).pyStr ∧
      (((⟨128, 256⟩ : Frac).mul (Frac.ofInt 4)).add ⟨1, 1⟩).toQ
        = (⟨128, 256⟩ : Frac).toQ * ((4 : Int) : ℚ) + 1 ∧
      (w.dom.descs.filter (fun x => x.tag == "measure")).getLast?
        = some ((measF "1"
            [.mk "layer" [] none [note "4" none, note "4" none]]).appendChild dirN) :=
  C6_finis_tstamp finisW [] "Finis."
    (.mk "meterSig" [("count", "2"), ("unit", "4")] none []) 4
    (measF "1" [.mk "layer" [] none [note "4" none, note "4" none]])
    (.mk "layer" [] none [note "4" none, note "4" none]) ⟨128, 256⟩
    (by decide) rfl (by decide) (by decide) rfl rfl (by decide)
    (by
      intro y hy hm
      have hall : (finisW.dom.descs.all (fun y => !(y.tag == "measure")
          || (y.descs.filter (fun x => x.tag == "measure")).isEmpty)) = true := by
        decide
      have hy2 := List.all_eq_true.mp hall y hy
      rw [hm] at hy2
      simp only [Bool.not_true, Bool.false_or] at hy2
      exact List.isEmpty_iff.mp hy2)
    (by decide)

/-- Witness for C1: a workpackage with no steps and `commitResult = true`
writes the `edit_appInfo` image (first conjunct); a workpackage whose
step raises makes the run fail with that exception and no write (second
conjunct). -/
theorem C1_commit_only_after_success_witness :
    (wpEmpty.commitResult = true ∧
      ∃ w : WrapperD, runScripts wpEmpty.scripts (.wrap appW) [] [] = .ok (.wrap w) ∧
        edit_appInfo w.dom wpEmpty.label "2026-10-12" = .ok appDocAfter) ∧
    execute_workpackage wpFail appW [] [] "2026-10-12"
      = .error (.runtimeError "step failed") :=
  ⟨(C1_commit_only_after_success wpEmpty appW [] [] "2026-10-12").1 appDocAfter rfl,
   (C1_commit_only_after_success wpFail appW [] [] "2026-10-12").2
     (.runtimeError "step failed") rfl⟩

end ELaute
